import Mathlib

/-!
Uphold custodial-wallet orchestration (`bat/ledger/internal/uphold/uphold.cc`)

A shallow embedding of the `ledger::uphold::Uphold` controller: contribution
fee split, the fee ledger with its bounded-retry timers, wallet disconnect and
the status-gated balance / capability queries.

Modelling conventions.

* The object and its collaborators are one explicit `State`; every member
  function is a function `State → State`.
* Calls that leave the controller (callbacks run, network requests, transfers
  started, notifications, event-log rows, `BLOG` lines) are appended, in program
  order, to `State.trace`.
* Asynchronous work is made explicit: a started transfer is stored in
  `State.pending` together with the bound completion callback, an armed one-shot
  timer is an entry of `State.transfer_fee_timers_`; the environment later
  completes a transfer (`completeTransfer`) or fires a timer (`fireTimer`).
* `double` amounts are carried as exact rationals (`ℚ`), `1.05` as `105/100`. The
  two arithmetic lines of `StartContribution` are thereby idealised: rounding,
  overflow to infinity and NaN are not represented, so no arithmetic law of the
  fee split is derived from this model; the theorems below only follow how the
  computed values are bound, stored and passed on.
* `DCHECK`s are compiled out, as in release builds.
* The randomized delay of a timer is not represented: an armed timer may fire at
  any later moment.
-/

namespace Uphold

/-! ## Data model -/

/-- Modelled from the spec: `mojom::Result` is declared outside this source
tree. The three codes the controller tests for are kept apart, every other code
is `OTHER n`. -/
inductive Result where
  | LEDGER_OK
  | LEDGER_ERROR
  | EXPIRED_TOKEN
  | OTHER (code : Nat)
  deriving DecidableEq, Repr

/-- Modelled from the spec: `mojom::WalletStatus` is declared outside this
source tree; the spec lists these five statuses. -/
inductive WalletStatus where
  | NOT_CONNECTED
  | PENDING
  | VERIFIED
  | DISCONNECTED_VERIFIED
  | DISCONNECTED_OTHER
  deriving DecidableEq, Repr

/-- Modelled from the spec: `mojom::ExternalWallet` is declared outside this
source tree. `fees` maps a contribution id to the fee still owed (a unique-key
map, kept here as an association list); `links` stands for the derived URLs
that `GenerateLinks` recomputes. -/
structure ExternalWallet where
  address : String
  token : String
  status : WalletStatus
  fees : List (String × ℚ)
  links : List String
  deriving DecidableEq

/-- Modelled from the spec: the fields of `mojom::ServerPublisherInfo` that
`StartContribution` reads. -/
structure ServerPublisherInfo where
  publisher_key : String
  address : String
  deriving DecidableEq

/-- The `Transaction` handed to the transfer executor. -/
structure Transaction where
  address : String := ""
  amount : ℚ := 0
  message : String := ""
  deriving DecidableEq

/-- Modelled from the spec: the capability set returned by the capability
endpoint; `{}` in the source is the value with both fields unset. -/
structure Capabilities where
  can_receive : Option Bool := none
  can_send : Option Bool := none
  deriving DecidableEq

/-- The completion callback bound at a `transfer_->Start` call site. -/
inductive TransferCallback where
  /-- Source `std::bind(&Uphold::ContributionCompleted, this, _1, _2, contribution_id,
  fee, info->publisher_key, callback)` -/
  | contribution (contribution_id : String) (fee : ℚ) (publisher_key : String)
      (callback : Nat)
  /-- Source `std::bind(&Uphold::OnTransferFeeCompleted, this, _1, _2, contribution_id,
  attempts)` -/
  | fee (contribution_id : String) (attempts : Int)
  /-- the caller-supplied `client::TransactionCallback` of `TransferFunds` -/
  | client (callback : Nat)
  deriving DecidableEq

/-- Everything the controller does to its collaborators, in program order.
Caller callbacks are identified by a number. -/
inductive Effect where
  | blog (level : Nat) (msg : String)
  | transferStart (transaction : Transaction) (callback : TransferCallback)
  | legacyCallback (callback : Nat) (result : Result)
  | clientCallback (callback : Nat) (result : Result) (transaction_id : String)
  | updateContributedAmount (contribution_id publisher_key : String) (callback : Nat)
  | balanceCallback (callback : Nat) (result : Result) (available : ℚ)
  | capabilitiesCallback (callback : Nat) (result : Result) (capabilities : Capabilities)
  | cardRequest (address token : String) (callback : Nat)
  | capabilitiesRequest (token : String) (callback : Nat)
  | walletStatusChange (src dst : WalletStatus)
  | showNotification (code : String) (args : List String)
  | walletDisconnected (wallet_type : String)
  | saveEventLog (key detail : String)
  deriving DecidableEq

/-- Constants and helpers of the repository that `uphold.cc` uses but that are
defined in other files; they are parameters of the model. -/
structure Env where
  /-- Source `constant::kWalletUphold` -/
  kWalletUphold : String
  /-- Source `ledger::notifications::kWalletDisconnected` -/
  kNotificationWalletDisconnected : String
  /-- Source `log::kWalletDisconnected` -/
  kLogWalletDisconnected : String
  /-- Source `GetFeeAddress()` -/
  feeAddress : String
  /-- Source `ledger::wallet::ResetWallet` -/
  ResetWallet : ExternalWallet → ExternalWallet
  /-- the URLs computed by `GenerateLinks` -/
  links : ExternalWallet → List String

/-- The controller together with the collaborators it owns or talks to. -/
structure State where
  /-- the persisted wallet record (`none`: never linked) -/
  wallet : Option ExternalWallet
  /-- Source `transfer_fee_timers_`: the armed timers, each with the attempt number
  bound into its task -/
  transfer_fee_timers_ : List (String × Int)
  /-- transfers started and not yet completed, oldest first -/
  pending : List (Transaction × TransferCallback)
  /-- Source `ledger_->IsShuttingDown()` -/
  shutting_down : Bool
  /-- the effects so far, oldest first -/
  trace : List Effect

/-! ## The fees map and the timer map -/

/-- Lookup in a `std::map`-like association list: the value under `id`. -/
def mapFind {β : Type} (id : String) : List (String × β) → Option β
  | [] => none
  | kv :: rest => if kv.1 = id then some kv.2 else mapFind id rest

/-- Source `map.erase(id)` -/
def mapErase {β : Type} (id : String) : List (String × β) → List (String × β)
  | [] => []
  | kv :: rest => if kv.1 = id then mapErase id rest else kv :: mapErase id rest

/-- The fee stored under `id`, if any. -/
def feesFind (id : String) (fees : List (String × ℚ)) : Option ℚ :=
  mapFind id fees

/-- Insertion into a key-sorted list, in front of the first larger key. -/
def feesInsertSorted (id : String) (fee : ℚ) : List (String × ℚ) → List (String × ℚ)
  | [] => [(id, fee)]
  | kv :: rest =>
    if id < kv.1 then (id, fee) :: kv :: rest
    else kv :: feesInsertSorted id fee rest

/-- Source `fees.insert(std::make_pair(id, fee))`: map insertion keeps an existing
entry and adds the pair only when the key is new. -/
def feesInsert (id : String) (fee : ℚ) (fees : List (String × ℚ)) : List (String × ℚ) :=
  if (mapFind id fees).isSome then fees else feesInsertSorted id fee fees

/-- Source `fees.erase(id)` -/
def feesErase (id : String) (fees : List (String × ℚ)) : List (String × ℚ) :=
  mapErase id fees

/-- The attempt number of the timer armed for `id`, if one is armed. -/
def timerFind (id : String) (timers : List (String × Int)) : Option Int :=
  mapFind id timers

/-- Source `transfer_fee_timers_.erase(id)` -/
def timerErase (id : String) (timers : List (String × Int)) : List (String × Int) :=
  mapErase id timers

/-- Source `transfer_fee_timers_[id].Start(...)`: the map holds one timer per id, and
starting it replaces whatever task it held. -/
def timerStart (id : String) (attempts : Int) (timers : List (String × Int)) :
    List (String × Int) :=
  mapErase id timers ++ [(id, attempts)]

/-! ## Collaborators -/

/-- Modelled from the spec: `ledger::wallet::GetWallet` is defined outside this
source tree; it returns the persisted record or nothing if never linked. -/
def GetWallet (s : State) : Option ExternalWallet :=
  s.wallet

/-- Modelled from the spec: `ledger::wallet::SetWallet` is defined outside this
source tree; the write is durable and visible to every later `GetWallet`. The
store is taken to accept the write (the source discards the returned flag). -/
def SetWallet (wallet : ExternalWallet) (s : State) : State :=
  { s with wallet := some wallet }

/-- Modelled from the spec: `GenerateLinks` is defined outside this source
tree; it regenerates the derived links of the record and nothing else. -/
def GenerateLinks (env : Env) (wallet : ExternalWallet) : ExternalWallet :=
  { wallet with links := env.links wallet }

/-- Append one effect to the trace. -/
def emit (e : Effect) (s : State) : State :=
  { s with trace := s.trace ++ [e] }

/-- Source `transfer_->Start(transaction, callback)`: the call is recorded and stays
pending until the environment completes it. -/
def transferStart (transaction : Transaction) (callback : TransferCallback) (s : State) :
    State :=
  { s with pending := s.pending ++ [(transaction, callback)],
           trace := s.trace ++ [Effect.transferStart transaction callback] }

/-! ## Member functions of `Uphold` -/

/-- Source `Uphold::StartTransferFeeTimer` -/
def StartTransferFeeTimer (fee_id : String) (attempts : Int) (s : State) : State :=
  emit (Effect.blog 1 "Uphold transfer fee timer set for ")
    { s with transfer_fee_timers_ := timerStart fee_id attempts s.transfer_fee_timers_ }

/-- Source `Uphold::Initialize` -/
def Initialize (s : State) : State :=
  match GetWallet s with
  | none => s
  | some wallet =>
    wallet.fees.foldl (fun st value => StartTransferFeeTimer value.1 1 st) s

/-- Source `Uphold::SaveTransferFee` -/
def SaveTransferFee (contribution_id : String) (fee : ℚ) (s : State) : State :=
  let s1 := StartTransferFeeTimer contribution_id 1 s
  match GetWallet s1 with
  | none => emit (Effect.blog 0 "Wallet is null") s1
  | some wallet =>
    SetWallet { wallet with fees := feesInsert contribution_id fee wallet.fees } s1

/-- Source `Uphold::RemoveTransferFee` -/
def RemoveTransferFee (contribution_id : String) (s : State) : State :=
  match GetWallet s with
  | none => emit (Effect.blog 0 "Wallet is null") s
  | some wallet =>
    SetWallet { wallet with fees := feesErase contribution_id wallet.fees } s

/-- Source `Uphold::ContributionCompleted` -/
def ContributionCompleted (result : Result) (transaction_id : String)
    (contribution_id : String) (fee : ℚ) (publisher_key : String) (callback : Nat)
    (s : State) : State :=
  let _ := transaction_id
  if result = Result.LEDGER_OK then
    let s1 := SaveTransferFee contribution_id fee s
    if publisher_key ≠ "" then
      emit (Effect.updateContributedAmount contribution_id publisher_key callback) s1
    else
      emit (Effect.legacyCallback callback result) s1
  else
    emit (Effect.legacyCallback callback result) s

/-- Source `Uphold::StartContribution`; `info` is `none` for a null pointer. -/
def StartContribution (contribution_id : String) (info : Option ServerPublisherInfo)
    (amount : ℚ) (callback : Nat) (s : State) : State :=
  match info with
  | none =>
    ContributionCompleted Result.LEDGER_ERROR "" contribution_id amount "" callback
      (emit (Effect.blog 0 "Publisher info is null") s)
  | some info =>
    let fee : ℚ := (amount * 1.05) - amount
    let reconcile_amount : ℚ := amount - fee
    let contribution_callback :=
      TransferCallback.contribution contribution_id fee info.publisher_key callback
    let transaction : Transaction := { address := info.address, amount := reconcile_amount }
    transferStart transaction contribution_callback s

/-- The memo of a fee transaction. -/
def kFeeMessage : String :=
  "5% transaction fee collected by Brave Software International"

/-- Source `Uphold::TransferFee` -/
def TransferFee (env : Env) (contribution_id : String) (amount : ℚ) (attempts : Int)
    (s : State) : State :=
  let transfer_callback := TransferCallback.fee contribution_id attempts
  let transaction : Transaction :=
    { address := env.feeAddress, amount := amount, message := kFeeMessage }
  transferStart transaction transfer_callback s

/-- Source `Uphold::OnTransferFeeTimerElapsed` -/
def OnTransferFeeTimerElapsed (env : Env) (id : String) (attempts : Int) (s : State) :
    State :=
  let s1 := { s with transfer_fee_timers_ := timerErase id s.transfer_fee_timers_ }
  match GetWallet s1 with
  | none => emit (Effect.blog 0 "Wallet is null") s1
  | some wallet =>
    match wallet.fees.find? (fun value => value.1 == id) with
    | some value => TransferFee env value.1 value.2 attempts s1
    | none => s1

/-- Source `Uphold::OnTransferFeeCompleted` -/
def OnTransferFeeCompleted (result : Result) (transaction_id : String)
    (contribution_id : String) (attempts : Int) (s : State) : State :=
  let _ := transaction_id
  if result ≠ Result.LEDGER_OK then
    if attempts < 3 then
      StartTransferFeeTimer contribution_id (attempts + 1)
        (emit (Effect.blog 0 "Transaction fee failed, retrying") s)
    else
      emit (Effect.blog 0 "Transaction fee failed, no remaining attempts this session") s
  else
    RemoveTransferFee contribution_id s

/-- Source `Uphold::TransferFunds` -/
def TransferFunds (amount : ℚ) (address : String) (callback : Nat) (s : State) : State :=
  let transaction : Transaction := { address := address, amount := amount }
  transferStart transaction (TransferCallback.client callback) s

/-- Source `Uphold::DisconnectWallet`; `notification` is `none` for `absl::nullopt`.
`OnWalletStatusChange(ledger_, from, to)` is recorded as one effect. -/
def DisconnectWallet (env : Env) (notification : Option String) (s : State) : State :=
  match GetWallet s with
  | none => s
  | some wallet =>
    let s1 := emit (Effect.blog 1 "Disconnecting wallet") s
    let wallet_address := wallet.address
    let manual : Bool := notification.isNone
    let src := wallet.status
    let wallet := env.ResetWallet wallet
    let wallet := if manual then { wallet with status := WalletStatus.NOT_CONNECTED } else wallet
    let dst := wallet.status
    let s2 := emit (Effect.walletStatusChange src dst) s1
    let shutting_down := s2.shutting_down
    let s3 :=
      match notification with
      | some text =>
        if !shutting_down && text ≠ "" then
          emit (Effect.showNotification text ["Uphold"]) s2
        else s2
      | none => s2
    let wallet := GenerateLinks env wallet
    let s4 := SetWallet wallet s3
    let s5 := if !shutting_down then emit (Effect.walletDisconnected env.kWalletUphold) s4 else s4
    emit (Effect.saveEventLog env.kLogWalletDisconnected
      (env.kWalletUphold ++ (if wallet_address ≠ "" then "/" else "") ++ wallet_address.take 5)) s5

/-- Source `Uphold::FetchBalance`. `CheckWalletState` (defined outside this source
tree, result discarded here) only asserts consistency of the record and has no
effect in the model. The bound `OnFetchBalance` continuation is the `callback`
of the recorded card request. -/
def FetchBalance (callback : Nat) (s : State) : State :=
  match GetWallet s with
  | none =>
    emit (Effect.balanceCallback callback Result.LEDGER_OK 0)
      (emit (Effect.blog 1 "Uphold wallet is null.") s)
  | some uphold_wallet =>
    if uphold_wallet.status ≠ WalletStatus.VERIFIED then
      emit (Effect.balanceCallback callback Result.LEDGER_OK 0)
        (emit (Effect.blog 1 "Uphold wallet is not VERIFIED.") s)
    else
      emit (Effect.cardRequest uphold_wallet.address uphold_wallet.token callback) s

/-- Source `Uphold::OnFetchBalance` -/
def OnFetchBalance (env : Env) (callback : Nat) (result : Result) (available : ℚ)
    (s : State) : State :=
  match GetWallet s with
  | none =>
    emit (Effect.balanceCallback callback Result.LEDGER_ERROR 0)
      (emit (Effect.blog 0 "Uphold wallet is null!") s)
  | some uphold_wallet =>
    if uphold_wallet.status ≠ WalletStatus.VERIFIED then
      emit (Effect.balanceCallback callback Result.LEDGER_ERROR 0)
        (emit (Effect.blog 0 "Wallet status should have been VERIFIED!") s)
    else if result = Result.EXPIRED_TOKEN then
      emit (Effect.balanceCallback callback Result.EXPIRED_TOKEN 0)
        (DisconnectWallet env (some env.kNotificationWalletDisconnected)
          (emit (Effect.blog 0 "Expired token") s))
    else if result ≠ Result.LEDGER_OK then
      emit (Effect.balanceCallback callback Result.LEDGER_ERROR 0)
        (emit (Effect.blog 0 "Couldn't get balance") s)
    else
      emit (Effect.balanceCallback callback Result.LEDGER_OK available) s

/-- Source `Uphold::GetCapabilities`; the caller's callback is handed to the
capability endpoint as it is. -/
def GetCapabilities (callback : Nat) (s : State) : State :=
  match GetWallet s with
  | none =>
    emit (Effect.capabilitiesCallback callback Result.LEDGER_ERROR {})
      (emit (Effect.blog 0 "Uphold wallet is null!") s)
  | some uphold_wallet =>
    if uphold_wallet.status ≠ WalletStatus.PENDING ∧
        uphold_wallet.status ≠ WalletStatus.VERIFIED then
      emit (Effect.capabilitiesCallback callback Result.LEDGER_ERROR {})
        (emit (Effect.blog 0 "Uphold wallet is neither in PENDING, nor in VERIFIED state!") s)
    else
      emit (Effect.capabilitiesRequest uphold_wallet.token callback) s

/-! ## The environment: completions and timer firings -/

/-- Run the completion callback bound at a `transfer_->Start` call site. -/
def runTransferCallback (callback : TransferCallback) (result : Result)
    (transaction_id : String) (s : State) : State :=
  match callback with
  | TransferCallback.contribution contribution_id fee publisher_key cb =>
    ContributionCompleted result transaction_id contribution_id fee publisher_key cb s
  | TransferCallback.fee contribution_id attempts =>
    OnTransferFeeCompleted result transaction_id contribution_id attempts s
  | TransferCallback.client cb =>
    emit (Effect.clientCallback cb result transaction_id) s

/-- The transfer executor completes the `i`-th pending transfer with
`(result, transaction_id)`. -/
def completeTransfer (i : Nat) (result : Result) (transaction_id : String) (s : State) :
    State :=
  match s.pending.get? i with
  | none => s
  | some call =>
    runTransferCallback call.2 result transaction_id
      { s with pending := s.pending.eraseIdx i }

/-- The timer armed for `id`, if any, fires: its task runs
`OnTransferFeeTimerElapsed(id, attempts)` with the attempt number bound when it
was armed. -/
def fireTimer (env : Env) (id : String) (s : State) : State :=
  match timerFind id s.transfer_fee_timers_ with
  | none => s
  | some attempts => OnTransferFeeTimerElapsed env id attempts s

/-- The transactions of the fee transfers started for `id`, oldest first. -/
def feeTransfers (id : String) (trace : List Effect) : List Transaction :=
  trace.filterMap (fun e =>
    match e with
    | Effect.transferStart transaction (TransferCallback.fee cid _) =>
      if cid = id then some transaction else none
    | _ => none)

/-- All transfers started, oldest first. -/
def transfers (trace : List Effect) : List (Transaction × TransferCallback) :=
  trace.filterMap (fun e =>
    match e with
    | Effect.transferStart transaction callback => some (transaction, callback)
    | _ => none)

/-- A contribution whose transfer (the one `StartContribution` has just
started, last in `pending`) completes with `(result, transaction_id)`. -/
def contributeAndComplete (contribution_id : String) (info : Option ServerPublisherInfo)
    (amount : ℚ) (callback : Nat) (result : Result) (transaction_id : String) (s : State) :
    State :=
  let s1 := StartContribution contribution_id info amount callback s
  if s1.pending.length = s.pending.length then s1
  else completeTransfer s.pending.length result transaction_id s1

/-- The fee scheduler left to itself for one fee id: while a timer is armed for
`id` it fires; if the firing starts a transfer (the new last entry of
`pending`), the executor completes it with the next outcome `outcomes i`.
`fuel` bounds the number of rounds. -/
def feeRetryLoop (env : Env) (id : String) (outcomes : Nat → Result × String) :
    Nat → Nat → State → State
  | 0, _, s => s
  | fuel + 1, i, s =>
    match timerFind id s.transfer_fee_timers_ with
    | none => s
    | some _ =>
      let s1 := fireTimer env id s
      if s1.pending.length = s.pending.length then
        feeRetryLoop env id outcomes fuel i s1
      else
        feeRetryLoop env id outcomes fuel (i + 1)
          (completeTransfer s.pending.length (outcomes i).1 (outcomes i).2 s1)

/-- The fee transaction `TransferFee` builds for `amount`. -/
def feeTransaction (env : Env) (amount : ℚ) : Transaction :=
  { address := env.feeAddress, amount := amount, message := kFeeMessage }

/-- Sample outcomes of the fee transfer: attempts 1 and 2 fail, attempt 3
succeeds. -/
def sampleOutcomes : Nat → Result × String :=
  fun n => if n = 2 then (Result.LEDGER_OK, "tx-3") else (Result.LEDGER_ERROR, "")

/-- A sample state in which the fee 5 of contribution `c1` has been registered
once: the entry is in `fees` and its timer is armed at attempt 1. -/
def sampleRegistered : State :=
  { wallet := some { address := "card-0001", token := "token",
                     status := WalletStatus.VERIFIED, fees := [("c1", 5)], links := [] }
    transfer_fee_timers_ := [("c1", 1)]
    pending := []
    shutting_down := false
    trace := [] }

/-- The requests sent to the custodial provider's balance (card) and capability
endpoints, oldest first. -/
def networkRequests (trace : List Effect) : List Effect :=
  trace.filter (fun e =>
    match e with
    | Effect.cardRequest _ _ _ => true
    | Effect.capabilitiesRequest _ _ => true
    | _ => false)

/-- The provider endpoint answers a recorded request by running the callback
that was handed to it: for a card request that is the bound
`Uphold::OnFetchBalance` (`base::BindOnce(&Uphold::OnFetchBalance, ...,
std::move(callback))`), for a capability request it is the caller's own
callback, which `GetCapabilities` passed on with `std::move(callback)`. -/
def completeRequest (env : Env) (request : Effect) (result : Result) (available : ℚ)
    (capabilities : Capabilities) (s : State) : State :=
  match request with
  | Effect.cardRequest _ _ callback => OnFetchBalance env callback result available s
  | Effect.capabilitiesRequest _ callback =>
    emit (Effect.capabilitiesCallback callback result capabilities) s
  | _ => s

/-- The most recent network request of the trace is answered. -/
def completeLastRequest (env : Env) (result : Result) (available : ℚ)
    (capabilities : Capabilities) (s : State) : State :=
  match (networkRequests s.trace).getLast? with
  | some request => completeRequest env request result available capabilities s
  | none => s

/-- One event in the life of the fee scheduler: a call of `Initialize`, a call
of `SaveTransferFee`, the timer armed for an id firing, or the transfer
executor completing the `i`-th pending transfer. -/
inductive Step where
  | init
  | saveTransferFee (contribution_id : String) (fee : ℚ)
  | timerFires (id : String)
  | transferCompletes (i : Nat) (result : Result) (transaction_id : String)
  deriving DecidableEq

/-- The effect of one event on the controller. -/
def step (env : Env) (e : Step) (s : State) : State :=
  match e with
  | Step.init => Initialize s
  | Step.saveTransferFee contribution_id fee => SaveTransferFee contribution_id fee s
  | Step.timerFires id => fireTimer env id s
  | Step.transferCompletes i result transaction_id =>
    completeTransfer i result transaction_id s

/-- The events of `steps` happen one after the other, first to last. -/
def run (env : Env) (steps : List Step) (s : State) : State :=
  steps.foldl (fun st e => step env e st) s

/-- A freshly constructed controller over the persisted record `wallet`: no
timer armed, no transfer started. -/
def initialState (wallet : Option ExternalWallet) (shutting_down : Bool) : State :=
  { wallet := wallet, transfer_fee_timers_ := [], pending := [],
    shutting_down := shutting_down, trace := [] }

/-- The number of armed timers kept for `id`. -/
def armedTimers (id : String) (timers : List (String × Int)) : Nat :=
  timers.countP (fun t => decide (t.1 = id))

/-- Whether a completion callback is the one of the fee transfer of `id`. -/
def isFeeCallbackFor (id : String) : TransferCallback → Bool
  | TransferCallback.fee contribution_id _ => decide (contribution_id = id)
  | _ => false

/-- The number of fee transfers for `id` started and not yet completed. -/
def feeTransfersInFlight (id : String) (pending : List (Transaction × TransferCallback)) :
    Nat :=
  pending.countP (fun p => isFeeCallbackFor id p.2)

/-- An event that does not re-arm an id whose fee transfer is in flight:
`Initialize` only while no id of `fees` has a fee transfer pending,
`SaveTransferFee(id, _)` only while `id` has none; firings and completions are
not restricted. -/
def stepAllowed (e : Step) (s : State) : Bool :=
  match e with
  | Step.init =>
    match s.wallet with
    | none => true
    | some wallet => wallet.fees.all (fun kv => feeTransfersInFlight kv.1 s.pending == 0)
  | Step.saveTransferFee contribution_id _ =>
    feeTransfersInFlight contribution_id s.pending == 0
  | _ => true

/-- Every event of `steps` is allowed in the state it happens in. -/
def runAllowed (env : Env) : List Step → State → Bool
  | [], _ => true
  | e :: rest, s => stepAllowed e s && runAllowed env rest (step env e s)

/-- A sample environment. -/
def sampleEnv : Env :=
  { kWalletUphold := "uphold"
    kNotificationWalletDisconnected := "wallet_disconnected"
    kLogWalletDisconnected := "wallet_disconnected"
    feeAddress := "fee-card"
    ResetWallet := fun w =>
      { address := "", token := "", fees := [], links := [],
        status := if w.status = WalletStatus.VERIFIED then WalletStatus.DISCONNECTED_VERIFIED
                  else WalletStatus.NOT_CONNECTED }
    links := fun w => if w.status = WalletStatus.VERIFIED then ["account"] else [] }

/-- A sample verified wallet record owing the fees `fees`. -/
def sampleWallet (fees : List (String × ℚ)) : ExternalWallet :=
  { address := "card-0001", token := "token", status := WalletStatus.VERIFIED,
    fees := fees, links := ["account"] }

/-- A sample quiescent state around the record `wallet`. -/
def sampleState (wallet : Option ExternalWallet) : State :=
  { wallet := wallet, transfer_fee_timers_ := [], pending := [], shutting_down := false,
    trace := [] }

/-- A sample publisher. -/
def samplePublisher : ServerPublisherInfo :=
  { publisher_key := "brave.com", address := "card-0002" }

/-! ## Facts about the fees map, the timer map and the pending list -/

theorem mapFind_eq_none_iff {β : Type} (id : String) (m : List (String × β)) :
    mapFind id m = none ↔ ∀ kv ∈ m, kv.1 ≠ id := by
  induction m with
  | nil => simp [mapFind]
  | cons kv rest ih =>
    by_cases h : kv.1 = id
    · simp [mapFind, h]
    · simp [mapFind, h, ih]

theorem mapFind_find {β : Type} (id : String) (m : List (String × β)) :
    (m.find? (fun value => value.1 == id)) = (mapFind id m).map (fun v => (id, v)) := by
  induction m with
  | nil => simp [mapFind]
  | cons kv rest ih =>
    by_cases h : kv.1 = id
    · obtain ⟨k, v⟩ := kv
      simp only at h
      simp [mapFind, h]
    · simp [mapFind, h, ih]

theorem mapFind_erase_self {β : Type} (id : String) (m : List (String × β)) :
    mapFind id (mapErase id m) = none := by
  induction m with
  | nil => simp [mapErase, mapFind]
  | cons kv rest ih =>
    by_cases hid : kv.1 = id
    · simp [mapErase, hid, ih]
    · simp [mapErase, hid, mapFind, ih]

theorem mapFind_erase_other {β : Type} (id k : String) (m : List (String × β))
    (hk : k ≠ id) : mapFind k (mapErase id m) = mapFind k m := by
  induction m with
  | nil => simp [mapErase, mapFind]
  | cons kv rest ih =>
    by_cases hid : kv.1 = id
    · have hkv : id ≠ k := fun h => hk h.symm
      simp [mapErase, hid, mapFind, hkv, ih]
    · by_cases hkv : kv.1 = k
      · simp [mapErase, hid, mapFind, hkv, hkv ▸ hid]
      · simp [mapErase, hid, mapFind, hkv, ih]

theorem mapFind_append {β : Type} (id : String) (m n : List (String × β)) :
    mapFind id (m ++ n) = (mapFind id m).orElse (fun _ => mapFind id n) := by
  induction m with
  | nil => simp [mapFind]
  | cons kv rest ih =>
    by_cases h : kv.1 = id
    · simp [mapFind, h]
    · simp [mapFind, h, ih]

theorem feesFind_insertSorted_self (id : String) (fee : ℚ) (fees : List (String × ℚ))
    (h : feesFind id fees = none) :
    feesFind id (feesInsertSorted id fee fees) = some fee := by
  induction fees with
  | nil => simp [feesInsertSorted, feesFind, mapFind]
  | cons kv rest ih =>
    have hne : kv.1 ≠ id := (mapFind_eq_none_iff id _).1 h kv (List.mem_cons_self _ _)
    have hrest : feesFind id rest = none :=
      (mapFind_eq_none_iff id rest).2
        (fun x hx => (mapFind_eq_none_iff id _).1 h x (List.mem_cons_of_mem _ hx))
    unfold feesInsertSorted
    split
    · simp [feesFind, mapFind]
    · have := ih hrest
      simp only [feesFind] at this
      simp [feesFind, mapFind, hne, this]

theorem feesFind_insertSorted_other (id k : String) (fee : ℚ) (fees : List (String × ℚ))
    (hk : k ≠ id) :
    feesFind k (feesInsertSorted id fee fees) = feesFind k fees := by
  induction fees with
  | nil => simp [feesInsertSorted, feesFind, mapFind, Ne.symm hk]
  | cons kv rest ih =>
    unfold feesInsertSorted
    split
    · simp [feesFind, mapFind, Ne.symm hk]
    · simp only [feesFind] at ih
      by_cases hkv : kv.1 = k
      · simp [feesFind, mapFind, hkv]
      · simp [feesFind, mapFind, hkv, ih]

theorem feesInsertSorted_perm (id : String) (fee : ℚ) (fees : List (String × ℚ)) :
    (feesInsertSorted id fee fees).Perm ((id, fee) :: fees) := by
  induction fees with
  | nil => simp [feesInsertSorted]
  | cons kv rest ih =>
    unfold feesInsertSorted
    split
    · exact List.Perm.refl _
    · exact (List.Perm.cons kv ih).trans (List.Perm.swap _ _ _)

theorem feesInsert_of_absent (id : String) (fee : ℚ) (fees : List (String × ℚ))
    (h : feesFind id fees = none) :
    feesInsert id fee fees = feesInsertSorted id fee fees := by
  simp only [feesFind] at h
  simp [feesInsert, h]

theorem feesInsert_of_present (id : String) (fee v : ℚ) (fees : List (String × ℚ))
    (h : feesFind id fees = some v) :
    feesInsert id fee fees = fees := by
  simp only [feesFind] at h
  simp [feesInsert, h]

theorem feesFind_erase_self (id : String) (fees : List (String × ℚ)) :
    feesFind id (feesErase id fees) = none :=
  mapFind_erase_self id fees

theorem feesFind_erase_other (id k : String) (fees : List (String × ℚ)) (hk : k ≠ id) :
    feesFind k (feesErase id fees) = feesFind k fees :=
  mapFind_erase_other id k fees hk

theorem timerFind_erase_self (id : String) (timers : List (String × Int)) :
    timerFind id (timerErase id timers) = none :=
  mapFind_erase_self id timers

theorem timerFind_erase_other (id k : String) (timers : List (String × Int)) (hk : k ≠ id) :
    timerFind k (timerErase id timers) = timerFind k timers :=
  mapFind_erase_other id k timers hk

theorem timerFind_start_self (id : String) (attempts : Int) (timers : List (String × Int)) :
    timerFind id (timerStart id attempts timers) = some attempts := by
  simp [timerFind, timerStart, mapFind_append, mapFind_erase_self, mapFind]

theorem timerFind_start_other (id k : String) (attempts : Int) (timers : List (String × Int))
    (hk : k ≠ id) :
    timerFind k (timerStart id attempts timers) = timerFind k timers := by
  simp only [timerFind, timerStart, mapFind_append, mapFind_erase_other id k timers hk]
  cases mapFind k timers <;> simp [mapFind, Ne.symm hk]

theorem pending_get_last (l : List (Transaction × TransferCallback))
    (a : Transaction × TransferCallback) : (l ++ [a]).get? l.length = some a := by
  simp

theorem pending_erase_last (l : List (Transaction × TransferCallback))
    (a : Transaction × TransferCallback) : (l ++ [a]).eraseIdx l.length = l := by
  simp [List.eraseIdx_append_of_length_le]

/-! ## C2: a successful contribution registers its fee -/

/-- C2: when a wallet record exists and `contribution_id` is not yet in `fees`,
a contribution whose transfer completes with `LEDGER_OK` leaves the persisted
record with `fees[contribution_id] = amount * 1.05 - amount`, every other key
as it was (the new map is the old one plus that one pair), the other fields of
the record unchanged, and a timer armed for the id at attempt 1. -/
theorem ContributionCompleted_registers_fee (contribution_id : String)
    (info : ServerPublisherInfo) (amount : ℚ) (callback : Nat) (transaction_id : String)
    (s : State) (wallet : ExternalWallet)
    (hwallet : s.wallet = some wallet)
    (hnew : feesFind contribution_id wallet.fees = none) :
    ∃ wallet1 : ExternalWallet,
      (contributeAndComplete contribution_id (some info) amount callback Result.LEDGER_OK
        transaction_id s).wallet = some wallet1 ∧
      feesFind contribution_id wallet1.fees = some (amount * 1.05 - amount) ∧
      (∀ k, k ≠ contribution_id → feesFind k wallet1.fees = feesFind k wallet.fees) ∧
      wallet1.fees.Perm ((contribution_id, amount * 1.05 - amount) :: wallet.fees) ∧
      wallet1.address = wallet.address ∧ wallet1.token = wallet.token ∧
      wallet1.status = wallet.status ∧ wallet1.links = wallet.links ∧
      timerFind contribution_id
        (contributeAndComplete contribution_id (some info) amount callback Result.LEDGER_OK
          transaction_id s).transfer_fee_timers_ = some 1 ∧
      (∀ k, k ≠ contribution_id →
        timerFind k (contributeAndComplete contribution_id (some info) amount callback
          Result.LEDGER_OK transaction_id s).transfer_fee_timers_ =
        timerFind k s.transfer_fee_timers_) := by
  refine ⟨{ wallet with
    fees := (feesInsert contribution_id (amount * 1.05 - amount) wallet.fees) }, ?_, ?_, ?_, ?_, rfl, rfl, rfl, rfl, ?_, ?_⟩
  · by_cases hk : info.publisher_key = "" <;>
      simp [contributeAndComplete, StartContribution, transferStart, completeTransfer,
        runTransferCallback, ContributionCompleted, SaveTransferFee, StartTransferFeeTimer,
        emit, GetWallet, SetWallet, hwallet, hk, List.eraseIdx_append_of_length_le]
  · simp only [feesInsert_of_absent _ _ _ hnew]
    exact feesFind_insertSorted_self _ _ _ hnew
  · intro k hk
    simp only [feesInsert_of_absent _ _ _ hnew]
    exact feesFind_insertSorted_other _ _ _ _ hk
  · simp only [feesInsert_of_absent _ _ _ hnew]
    exact feesInsertSorted_perm _ _ _
  · by_cases hk : info.publisher_key = "" <;>
      simp [contributeAndComplete, StartContribution, transferStart, completeTransfer,
        runTransferCallback, ContributionCompleted, SaveTransferFee, StartTransferFeeTimer,
        emit, GetWallet, SetWallet, hwallet, hk, List.eraseIdx_append_of_length_le,
        timerFind_start_self]
  · intro k hk'
    by_cases hk : info.publisher_key = "" <;>
      simp [contributeAndComplete, StartContribution, transferStart, completeTransfer,
        runTransferCallback, ContributionCompleted, SaveTransferFee, StartTransferFeeTimer,
        emit, GetWallet, SetWallet, hwallet, hk, List.eraseIdx_append_of_length_le,
        timerFind_start_other _ _ _ _ hk']

/-- C2 at a concrete input: a contribution of 100 on an empty fee map registers
the fee 5 under its id. -/
theorem ContributionCompleted_registers_fee_witness :
    (sampleState (some (sampleWallet []))).wallet = some (sampleWallet []) ∧
    feesFind "c1" (sampleWallet []).fees = none ∧
    ∃ wallet1 : ExternalWallet,
      (contributeAndComplete "c1" (some samplePublisher) 100 7 Result.LEDGER_OK "tx"
        (sampleState (some (sampleWallet [])))).wallet = some wallet1 ∧
      feesFind "c1" wallet1.fees = some 5 ∧
      timerFind "c1"
        (contributeAndComplete "c1" (some samplePublisher) 100 7 Result.LEDGER_OK "tx"
          (sampleState (some (sampleWallet [])))).transfer_fee_timers_ = some 1 := by
  refine ⟨rfl, rfl, ?_⟩
  obtain ⟨wallet1, h1, h2, _, _, _, _, _, _, h3, _⟩ :=
    ContributionCompleted_registers_fee "c1" samplePublisher 100 7 "tx"
      (sampleState (some (sampleWallet []))) (sampleWallet []) rfl rfl
  refine ⟨wallet1, h1, ?_, h3⟩
  rw [h2]
  norm_num

/-! ## C3: a failed contribution registers no fee -/

/-- C3: without publisher info `StartContribution` starts no transfer and runs
the caller's callback with `LEDGER_ERROR`; a transfer that completes with a
result other than `LEDGER_OK` has that result passed to the callback, both when
`ContributionCompleted` is taken alone and at the end of a whole contribution;
in each case the wallet record (so its `fees`) and the timers are unchanged. -/
theorem failed_contribution_registers_no_fee (contribution_id : String)
    (info : ServerPublisherInfo) (amount fee : ℚ) (publisher_key : String) (callback : Nat)
    (result : Result) (transaction_id : String) (s : State)
    (hresult : result ≠ Result.LEDGER_OK) :
    ((StartContribution contribution_id none amount callback s).trace =
        s.trace ++ [Effect.blog 0 "Publisher info is null",
          Effect.legacyCallback callback Result.LEDGER_ERROR] ∧
      (StartContribution contribution_id none amount callback s).pending = s.pending ∧
      (StartContribution contribution_id none amount callback s).wallet = s.wallet ∧
      (StartContribution contribution_id none amount callback s).transfer_fee_timers_ =
        s.transfer_fee_timers_) ∧
    ((ContributionCompleted result transaction_id contribution_id fee publisher_key callback
        s).trace = s.trace ++ [Effect.legacyCallback callback result] ∧
      (ContributionCompleted result transaction_id contribution_id fee publisher_key callback
        s).pending = s.pending ∧
      (ContributionCompleted result transaction_id contribution_id fee publisher_key callback
        s).wallet = s.wallet ∧
      (ContributionCompleted result transaction_id contribution_id fee publisher_key callback
        s).transfer_fee_timers_ = s.transfer_fee_timers_) ∧
    ((contributeAndComplete contribution_id (some info) amount callback result transaction_id
        s).trace =
        s.trace ++ [Effect.transferStart
          (Transaction.mk info.address (amount - (amount * 1.05 - amount)) "")
          (TransferCallback.contribution contribution_id (amount * 1.05 - amount)
            info.publisher_key callback),
          Effect.legacyCallback callback result] ∧
      (contributeAndComplete contribution_id (some info) amount callback result transaction_id
        s).pending = s.pending ∧
      (contributeAndComplete contribution_id (some info) amount callback result transaction_id
        s).wallet = s.wallet ∧
      (contributeAndComplete contribution_id (some info) amount callback result transaction_id
        s).transfer_fee_timers_ = s.transfer_fee_timers_) := by
  refine ⟨?_, ?_, ?_⟩
  · simp [StartContribution, ContributionCompleted, emit]
  · simp [ContributionCompleted, emit, hresult]
  · simp [contributeAndComplete, StartContribution, transferStart, completeTransfer,
      runTransferCallback, ContributionCompleted, emit, hresult,
      List.eraseIdx_append_of_length_le]

/-- C3 at a concrete input: a transfer that ends with `EXPIRED_TOKEN` leaves
the fee map of the sample wallet empty and arms nothing. -/
theorem failed_contribution_registers_no_fee_witness :
    Result.EXPIRED_TOKEN ≠ Result.LEDGER_OK ∧
    (contributeAndComplete "c1" (some samplePublisher) 100 7 Result.EXPIRED_TOKEN "tx"
      (sampleState (some (sampleWallet [])))).wallet = some (sampleWallet []) ∧
    (contributeAndComplete "c1" (some samplePublisher) 100 7 Result.EXPIRED_TOKEN "tx"
      (sampleState (some (sampleWallet [])))).transfer_fee_timers_ = [] ∧
    (StartContribution "c1" none 100 7 (sampleState (some (sampleWallet [])))).trace =
      [Effect.blog 0 "Publisher info is null",
        Effect.legacyCallback 7 Result.LEDGER_ERROR] :=
  ⟨by decide,
    (failed_contribution_registers_no_fee "c1" samplePublisher 100 5 "brave.com" 7
      Result.EXPIRED_TOKEN "tx" (sampleState (some (sampleWallet []))) (by decide)).2.2.2.2.1,
    (failed_contribution_registers_no_fee "c1" samplePublisher 100 5 "brave.com" 7
      Result.EXPIRED_TOKEN "tx" (sampleState (some (sampleWallet []))) (by decide)).2.2.2.2.2,
    (failed_contribution_registers_no_fee "c1" samplePublisher 100 5 "brave.com" 7
      Result.EXPIRED_TOKEN "tx" (sampleState (some (sampleWallet []))) (by decide)).1.1⟩

/-! ## C4: the retry cap of the fee scheduler -/

theorem feeRetryLoop_idle (env : Env) (id : String) (outcomes : Nat → Result × String)
    (fuel i : Nat) (s : State) (h : timerFind id s.transfer_fee_timers_ = none) :
    feeRetryLoop env id outcomes fuel i s = s := by
  cases fuel with
  | zero => rfl
  | succ n => simp [feeRetryLoop, h]

/-- One round of the loop on an owed fee: the timer fires, one fee transfer is
started and completed with `outcomes i`. -/
theorem feeRetryLoop_round (env : Env) (id : String) (outcomes : Nat → Result × String)
    (fuel i : Nat) (s : State) (wallet : ExternalWallet) (amount : ℚ) (attempts : Int)
    (hwallet : s.wallet = some wallet) (hfee : feesFind id wallet.fees = some amount)
    (htimer : timerFind id s.transfer_fee_timers_ = some attempts) :
    feeRetryLoop env id outcomes (fuel + 1) i s =
      feeRetryLoop env id outcomes fuel (i + 1)
        (OnTransferFeeCompleted (outcomes i).1 (outcomes i).2 id attempts
          { s with
            transfer_fee_timers_ := timerErase id s.transfer_fee_timers_
            trace := s.trace ++
              [Effect.transferStart (feeTransaction env amount)
                (TransferCallback.fee id attempts)] }) := by
  have hfind : wallet.fees.find? (fun value => value.1 == id) = some (id, amount) := by
    rw [mapFind_find]
    simp only [feesFind] at hfee
    simp [hfee]
  simp [feeRetryLoop, htimer, fireTimer, OnTransferFeeTimerElapsed, GetWallet, hwallet,
    hfind, TransferFee, transferStart, completeTransfer, runTransferCallback,
    List.eraseIdx_append_of_length_le, feeTransaction, timerErase]

theorem feeTransfers_append (id : String) (t1 t2 : List Effect) :
    feeTransfers id (t1 ++ t2) = feeTransfers id t1 ++ feeTransfers id t2 := by
  simp [feeTransfers, List.filterMap_append]

/-- The loop started with `rem` attempts left (the armed timer carries attempt
`4 - rem`): it stops with no timer armed for `id` and nothing pending; a first
success at offset `j < rem` means `j + 1` fee transfers and the entry erased, no
success within `rem` outcomes means `rem` fee transfers and the record as it
was. -/
theorem feeRetryLoop_remaining (env : Env) (id : String) (outcomes : Nat → Result × String)
    (wallet : ExternalWallet) (amount : ℚ) (hfee : feesFind id wallet.fees = some amount) :
    ∀ (rem fuel i : Nat) (s : State), 1 ≤ rem → rem ≤ 3 → rem ≤ fuel →
      s.wallet = some wallet →
      timerFind id s.transfer_fee_timers_ = some ((4 : Int) - (rem : Int)) →
      (feeRetryLoop env id outcomes fuel i s).pending = s.pending ∧
      timerFind id (feeRetryLoop env id outcomes fuel i s).transfer_fee_timers_ = none ∧
      (∀ j, j < rem → (∀ j', j' < j → (outcomes (i + j')).1 ≠ Result.LEDGER_OK) →
        (outcomes (i + j)).1 = Result.LEDGER_OK →
        feeTransfers id (feeRetryLoop env id outcomes fuel i s).trace =
          feeTransfers id s.trace ++ List.replicate (j + 1) (feeTransaction env amount) ∧
        (feeRetryLoop env id outcomes fuel i s).wallet =
          some { wallet with fees := feesErase id wallet.fees }) ∧
      ((∀ j, j < rem → (outcomes (i + j)).1 ≠ Result.LEDGER_OK) →
        feeTransfers id (feeRetryLoop env id outcomes fuel i s).trace =
          feeTransfers id s.trace ++ List.replicate rem (feeTransaction env amount) ∧
        (feeRetryLoop env id outcomes fuel i s).wallet = s.wallet) := by
  intro rem
  induction rem with
  | zero => intro fuel i s h1; omega
  | succ r ih =>
    intro fuel i s _ hrem hfuel hwallet htimer
    obtain ⟨f, rfl⟩ : ∃ f, fuel = f + 1 := ⟨fuel - 1, by omega⟩
    rw [feeRetryLoop_round env id outcomes f i s wallet amount _ hwallet hfee htimer]
    by_cases hok : (outcomes i).1 = Result.LEDGER_OK
    · -- collected at this attempt
      have hidle : timerFind id (timerErase id s.transfer_fee_timers_) = none :=
        timerFind_erase_self id _
      simp only [OnTransferFeeCompleted, hok, ne_eq, not_true_eq_false, if_false,
        RemoveTransferFee, GetWallet, hwallet, SetWallet]
      rw [feeRetryLoop_idle _ _ _ _ _ _ hidle]
      refine ⟨rfl, hidle, ?_, ?_⟩
      · intro j _ hbefore _
        have hj : j = 0 := by
          by_contra hne
          exact hbefore 0 (Nat.pos_of_ne_zero hne) (by simpa using hok)
        subst hj
        exact ⟨by simp [feeTransfers_append, feeTransfers, feeTransaction], rfl⟩
      · intro hall
        exact absurd (by simpa using hok) (hall 0 (by omega))
    · by_cases hlast : r = 0
      · -- attempt 3 failed: abandoned
        subst hlast
        have hidle : timerFind id (timerErase id s.transfer_fee_timers_) = none :=
          timerFind_erase_self id _
        have hge : ¬ (((4 : Int) - ((0 + 1 : Nat) : Int)) < 3) := by norm_num
        simp only [OnTransferFeeCompleted, hok, ne_eq, not_false_eq_true, if_true, hge,
          if_false, emit]
        rw [feeRetryLoop_idle _ _ _ _ _ _ hidle]
        refine ⟨rfl, hidle, ?_, ?_⟩
        · intro j hj _ hjok
          have hj0 : j = 0 := by omega
          subst hj0
          exact absurd (by simpa using hjok) hok
        · intro _
          exact ⟨by simp [feeTransfers_append, feeTransfers, feeTransaction], hwallet.symm ▸ rfl⟩
      · -- a failure before the cap: re-armed at the next attempt
        have hlt : ((4 : Int) - ((r + 1 : Nat) : Int)) < 3 := by
          push_cast
          omega
        simp only [OnTransferFeeCompleted, hok, ne_eq, not_false_eq_true, if_true, hlt,
          StartTransferFeeTimer, emit]
        have hnext := ih f (i + 1)
          { wallet := s.wallet
            transfer_fee_timers_ :=
              timerStart id ((4 : Int) - ((r + 1 : Nat) : Int) + 1)
                (timerErase id s.transfer_fee_timers_)
            pending := s.pending
            shutting_down := s.shutting_down
            trace := s.trace ++
              [Effect.transferStart (feeTransaction env amount)
                (TransferCallback.fee id ((4 : Int) - ((r + 1 : Nat) : Int)))] ++
              [Effect.blog 0 "Transaction fee failed, retrying"] ++
              [Effect.blog 1 "Uphold transfer fee timer set for "] }
          (by omega) (by omega) (by omega) hwallet
          (by
            rw [timerFind_start_self]
            congr 1
            push_cast
            ring)
        obtain ⟨hp, ht, hsucc, hfail⟩ := hnext
        refine ⟨hp, ht, ?_, ?_⟩
        · intro j hj hbefore hjok
          obtain ⟨j0, rfl⟩ : ∃ j0, j = j0 + 1 := by
            refine ⟨j - 1, ?_⟩
            have : j ≠ 0 := by
              intro h0
              subst h0
              exact hok (by simpa using hjok)
            omega
          have h := hsucc j0 (by omega)
            (fun j' hj' => by
              have := hbefore (j' + 1) (by omega)
              rwa [show i + (j' + 1) = i + 1 + j' by omega] at this)
            (by rwa [show i + (j0 + 1) = i + 1 + j0 by omega] at hjok)
          refine ⟨?_, h.2⟩
          rw [h.1]
          simp [feeTransfers_append, feeTransfers, feeTransaction, List.replicate_succ]
        · intro hall
          have h := hfail (fun j hj => by
            have := hall (j + 1) (by omega)
            rwa [show i + (j + 1) = i + 1 + j by omega] at this)
          refine ⟨?_, h.2⟩
          rw [h.1]
          simp [feeTransfers_append, feeTransfers, feeTransaction, List.replicate_succ]

/-- C4: a fee registered once (record present, entry in `fees`, timer armed at
attempt 1) and then left to the scheduler, with any outcomes and any fuel of at
least 3 rounds: the run ends with no timer armed for the id and no transfer
pending; if the first `LEDGER_OK` is outcome number `k`, exactly `min 3 k` fee
transfers (each of the stored amount, to the fee address) were started, and for
`k ≤ 3` the entry is erased from the persisted record while every other key is
kept; if outcomes 1 to 3 all fail, exactly 3 were started and the record, entry
included, is as before. -/
theorem fee_retry_cap (env : Env) (id : String) (outcomes : Nat → Result × String)
    (fuel : Nat) (s : State) (wallet : ExternalWallet) (amount : ℚ)
    (hwallet : s.wallet = some wallet)
    (hfee : feesFind id wallet.fees = some amount)
    (htimer : timerFind id s.transfer_fee_timers_ = some 1)
    (hfuel : 3 ≤ fuel) :
    (feeRetryLoop env id outcomes fuel 0 s).pending = s.pending ∧
    timerFind id (feeRetryLoop env id outcomes fuel 0 s).transfer_fee_timers_ = none ∧
    (∀ k, 1 ≤ k → (∀ j, j + 1 < k → (outcomes j).1 ≠ Result.LEDGER_OK) →
      (outcomes (k - 1)).1 = Result.LEDGER_OK →
      feeTransfers id (feeRetryLoop env id outcomes fuel 0 s).trace =
        feeTransfers id s.trace ++ List.replicate (min 3 k) (feeTransaction env amount) ∧
      (k ≤ 3 →
        (feeRetryLoop env id outcomes fuel 0 s).wallet =
          some { wallet with fees := feesErase id wallet.fees } ∧
        feesFind id (feesErase id wallet.fees) = none ∧
        ∀ other, other ≠ id →
          feesFind other (feesErase id wallet.fees) = feesFind other wallet.fees) ∧
      (3 < k → (feeRetryLoop env id outcomes fuel 0 s).wallet = some wallet)) ∧
    ((∀ j, j < 3 → (outcomes j).1 ≠ Result.LEDGER_OK) →
      feeTransfers id (feeRetryLoop env id outcomes fuel 0 s).trace =
        feeTransfers id s.trace ++ List.replicate 3 (feeTransaction env amount) ∧
      (feeRetryLoop env id outcomes fuel 0 s).wallet = some wallet ∧
      feesFind id wallet.fees = some amount) := by
  obtain ⟨hp, ht, hsucc, hfail⟩ :=
    feeRetryLoop_remaining env id outcomes wallet amount hfee 3 fuel 0 s (by omega) (by omega)
      hfuel hwallet (by rw [htimer]; norm_num)
  simp only [Nat.zero_add] at hsucc hfail
  refine ⟨hp, ht, ?_, ?_⟩
  · intro k hk hbefore hkok
    by_cases hk3 : k ≤ 3
    · have h := hsucc (k - 1) (by omega) (fun j' hj' => hbefore j' (by omega)) hkok
      rw [show k - 1 + 1 = k by omega] at h
      refine ⟨?_, fun _ => ⟨h.2, feesFind_erase_self id _,
        fun other ho => feesFind_erase_other id other _ ho⟩, fun h3 => absurd hk3 (by omega)⟩
      rw [h.1, Nat.min_eq_right hk3]
    · have h := hfail (fun j hj => hbefore j (by omega))
      refine ⟨?_, fun h3 => absurd h3 hk3, fun _ => h.2.trans hwallet⟩
      rw [h.1, Nat.min_eq_left (by omega)]
  · intro hall
    have h := hfail hall
    exact ⟨h.1, h.2.trans hwallet, hfee⟩

/-- C4 at a concrete input: two failures then a success give exactly three fee
transfers of 5 and an empty fee map. -/
theorem fee_retry_cap_witness :
    sampleRegistered.wallet =
      some { address := "card-0001", token := "token", status := WalletStatus.VERIFIED,
             fees := [("c1", 5)], links := [] } ∧
    feesFind "c1" [("c1", 5)] = some 5 ∧
    timerFind "c1" sampleRegistered.transfer_fee_timers_ = some 1 ∧
    feeTransfers "c1" (feeRetryLoop sampleEnv "c1" sampleOutcomes 3 0 sampleRegistered).trace =
      feeTransfers "c1" sampleRegistered.trace ++
        List.replicate (min 3 3) (feeTransaction sampleEnv 5) ∧
    timerFind "c1"
      (feeRetryLoop sampleEnv "c1" sampleOutcomes 3 0 sampleRegistered).transfer_fee_timers_ =
        none :=
  ⟨rfl, by simp [feesFind, mapFind], by simp [timerFind, mapFind, sampleRegistered],
    ((fee_retry_cap sampleEnv "c1" sampleOutcomes 3 sampleRegistered _ 5 rfl
      (by simp [feesFind, mapFind]) (by simp [timerFind, mapFind, sampleRegistered])
      (le_refl 3)).2.2.1 3 (by decide)
      (fun j hj => by
        have hj2 : j ≠ 2 := by omega
        simp [sampleOutcomes, hj2])
      (by simp [sampleOutcomes])).1,
    (fee_retry_cap sampleEnv "c1" sampleOutcomes 3 sampleRegistered _ 5 rfl
      (by simp [feesFind, mapFind]) (by simp [timerFind, mapFind, sampleRegistered])
      (le_refl 3)).2.1⟩

/-! ## C5: a timer firing looks the fee up in the current record -/

/-- C5: `OnTransferFeeTimerElapsed(id, attempts)` never changes the wallet record
and never arms a timer (it only erases the one of `id`). With no record it only
logs; with a record that has no entry for `id` it does nothing else at all; in
both cases no transfer is started. With an entry present it starts exactly one
transfer, of the amount stored under `id` in the current record, to the fee
address, bound to `OnTransferFeeCompleted(id, attempts)`. -/
theorem OnTransferFeeTimerElapsed_lookup (env : Env) (id : String) (attempts : Int)
    (s : State) :
    (OnTransferFeeTimerElapsed env id attempts s).wallet = s.wallet ∧
    (OnTransferFeeTimerElapsed env id attempts s).transfer_fee_timers_ =
      timerErase id s.transfer_fee_timers_ ∧
    timerFind id (OnTransferFeeTimerElapsed env id attempts s).transfer_fee_timers_ = none ∧
    (∀ k, k ≠ id →
      timerFind k (OnTransferFeeTimerElapsed env id attempts s).transfer_fee_timers_ =
        timerFind k s.transfer_fee_timers_) ∧
    (s.wallet = none →
      (OnTransferFeeTimerElapsed env id attempts s).trace =
        s.trace ++ [Effect.blog 0 "Wallet is null"] ∧
      transfers (OnTransferFeeTimerElapsed env id attempts s).trace = transfers s.trace ∧
      (OnTransferFeeTimerElapsed env id attempts s).pending = s.pending) ∧
    (∀ wallet, s.wallet = some wallet → feesFind id wallet.fees = none →
      (OnTransferFeeTimerElapsed env id attempts s).trace = s.trace ∧
      (OnTransferFeeTimerElapsed env id attempts s).pending = s.pending) ∧
    (∀ wallet amount, s.wallet = some wallet → feesFind id wallet.fees = some amount →
      (OnTransferFeeTimerElapsed env id attempts s).trace =
        s.trace ++ [Effect.transferStart
          (Transaction.mk env.feeAddress amount kFeeMessage)
          (TransferCallback.fee id attempts)] ∧
      transfers (OnTransferFeeTimerElapsed env id attempts s).trace =
        transfers s.trace ++
          [(Transaction.mk env.feeAddress amount kFeeMessage,
            TransferCallback.fee id attempts)] ∧
      (OnTransferFeeTimerElapsed env id attempts s).pending =
        s.pending ++
          [(Transaction.mk env.feeAddress amount kFeeMessage,
            TransferCallback.fee id attempts)]) := by
  have hfields : (OnTransferFeeTimerElapsed env id attempts s).wallet = s.wallet ∧
      (OnTransferFeeTimerElapsed env id attempts s).transfer_fee_timers_ =
        timerErase id s.transfer_fee_timers_ := by
    unfold OnTransferFeeTimerElapsed
    cases hw : s.wallet with
    | none => simp [GetWallet, hw, emit]
    | some wallet =>
      cases hf : wallet.fees.find? (fun value => value.1 == id) with
      | none => simp [GetWallet, hw, hf]
      | some value => simp [GetWallet, hw, hf, TransferFee, transferStart]
  refine ⟨hfields.1, hfields.2, ?_, ?_, ?_, ?_, ?_⟩
  · rw [hfields.2]
    exact timerFind_erase_self id _
  · intro k hk
    rw [hfields.2]
    exact timerFind_erase_other id k _ hk
  · intro hw
    simp [OnTransferFeeTimerElapsed, GetWallet, hw, emit, transfers, List.filterMap_append]
  · intro wallet hw hf
    have hfind : wallet.fees.find? (fun value => value.1 == id) = none := by
      rw [mapFind_find]
      simp only [feesFind] at hf
      simp [hf]
    simp [OnTransferFeeTimerElapsed, GetWallet, hw, hfind]
  · intro wallet amount hw hf
    have hfind : wallet.fees.find? (fun value => value.1 == id) = some (id, amount) := by
      rw [mapFind_find]
      simp only [feesFind] at hf
      simp [hf]
    simp [OnTransferFeeTimerElapsed, GetWallet, hw, hfind, TransferFee, transferStart,
      transfers, List.filterMap_append]

/-- C5 at concrete inputs: on the registered sample the firing starts one
transfer of 5; with no record it starts none. -/
theorem OnTransferFeeTimerElapsed_lookup_witness :
    transfers (OnTransferFeeTimerElapsed sampleEnv "c1" 1 sampleRegistered).trace =
      transfers sampleRegistered.trace ++
        [(Transaction.mk sampleEnv.feeAddress 5 kFeeMessage, TransferCallback.fee "c1" 1)] ∧
    transfers (OnTransferFeeTimerElapsed sampleEnv "c1" 1 (sampleState none)).trace =
      transfers (sampleState none).trace ∧
    (OnTransferFeeTimerElapsed sampleEnv "c1" 1 (sampleState (some (sampleWallet [])))).trace =
      (sampleState (some (sampleWallet []))).trace :=
  ⟨((OnTransferFeeTimerElapsed_lookup sampleEnv "c1" 1 sampleRegistered).2.2.2.2.2.2 _ 5 rfl
      (by simp [feesFind, mapFind])).2.1,
    ((OnTransferFeeTimerElapsed_lookup sampleEnv "c1" 1 (sampleState none)).2.2.2.2.1 rfl).2.1,
    ((OnTransferFeeTimerElapsed_lookup sampleEnv "c1" 1
      (sampleState (some (sampleWallet [])))).2.2.2.2.2.1 _ rfl rfl).1⟩

/-! ## C6: `Initialize` re-arms every owed fee -/

/-- The loop of `Initialize` over a list of entries. -/
theorem Initialize_loop (fees : List (String × ℚ)) :
    ∀ s : State,
      (fees.foldl (fun st value => StartTransferFeeTimer value.1 1 st) s).wallet = s.wallet ∧
      (fees.foldl (fun st value => StartTransferFeeTimer value.1 1 st) s).pending =
        s.pending ∧
      (fees.foldl (fun st value => StartTransferFeeTimer value.1 1 st) s).shutting_down =
        s.shutting_down ∧
      (fees.foldl (fun st value => StartTransferFeeTimer value.1 1 st) s).trace =
        s.trace ++ List.replicate fees.length (Effect.blog 1 "Uphold transfer fee timer set for ") ∧
      ∀ k, timerFind k
          (fees.foldl (fun st value => StartTransferFeeTimer value.1 1 st)
            s).transfer_fee_timers_ =
        if (feesFind k fees).isSome then some 1 else timerFind k s.transfer_fee_timers_ := by
  induction fees with
  | nil => intro s; simp [feesFind, mapFind]
  | cons kv rest ih =>
    intro s
    obtain ⟨h1, h2, h3, h4, h5⟩ := ih (StartTransferFeeTimer kv.1 1 s)
    simp only [List.foldl_cons]
    refine ⟨h1, h2, h3, ?_, ?_⟩
    · rw [h4]
      simp [StartTransferFeeTimer, emit, List.replicate_succ]
    · intro k
      rw [h5 k]
      by_cases hk : kv.1 = k
      · subst hk
        simp [feesFind, mapFind, StartTransferFeeTimer, emit, timerFind_start_self]
      · have hk2 : k ≠ kv.1 := fun h => hk h.symm
        simp only [feesFind, mapFind, hk, if_false, StartTransferFeeTimer, emit,
          timerFind_start_other _ _ _ _ hk2]

/-- C6: with a persisted record, `Initialize` leaves the record (and the pending
transfers) unchanged, arms a timer at attempt 1 for every id of `fees`, leaves
the timer state of every other id as it was, and starts no transfer (it only
logs one line per entry); with no record it changes nothing. -/
theorem Initialize_arms_every_fee (s : State) :
    (s.wallet = none → Initialize s = s) ∧
    (∀ wallet, s.wallet = some wallet →
      (Initialize s).wallet = some wallet ∧
      (Initialize s).pending = s.pending ∧
      (Initialize s).trace =
        s.trace ++
          List.replicate wallet.fees.length (Effect.blog 1 "Uphold transfer fee timer set for ") ∧
      (∀ id amount, feesFind id wallet.fees = some amount →
        timerFind id (Initialize s).transfer_fee_timers_ = some 1) ∧
      (∀ id, feesFind id wallet.fees = none →
        timerFind id (Initialize s).transfer_fee_timers_ =
          timerFind id s.transfer_fee_timers_)) := by
  constructor
  · intro hw
    simp [Initialize, GetWallet, hw]
  · intro wallet hw
    obtain ⟨h1, h2, _, h4, h5⟩ := Initialize_loop wallet.fees s
    have hinit : Initialize s =
        wallet.fees.foldl (fun st value => StartTransferFeeTimer value.1 1 st) s := by
      simp [Initialize, GetWallet, hw]
    rw [hinit]
    refine ⟨h1.trans hw, h2, h4, ?_, ?_⟩
    · intro id amount hid
      rw [h5 id, hid]
      rfl
    · intro id hid
      rw [h5 id, hid]
      rfl

/-- C6 at concrete inputs: both owed fees of a sample record get a timer at
attempt 1, an id that is not owed gets none, and nothing happens without a
record. -/
theorem Initialize_arms_every_fee_witness :
    timerFind "c1"
      (Initialize (sampleState (some (sampleWallet [("c1", 5), ("c2", 1)])))).transfer_fee_timers_
      = some 1 ∧
    timerFind "c2"
      (Initialize (sampleState (some (sampleWallet [("c1", 5), ("c2", 1)])))).transfer_fee_timers_
      = some 1 ∧
    timerFind "c3"
      (Initialize (sampleState (some (sampleWallet [("c1", 5), ("c2", 1)])))).transfer_fee_timers_
      = timerFind "c3"
        (sampleState (some (sampleWallet [("c1", 5), ("c2", 1)]))).transfer_fee_timers_ ∧
    Initialize (sampleState none) = sampleState none :=
  ⟨((Initialize_arms_every_fee _).2 (sampleWallet [("c1", 5), ("c2", 1)]) rfl).2.2.2.1 "c1" 5
      (by simp [feesFind, mapFind, sampleWallet]),
    ((Initialize_arms_every_fee _).2 (sampleWallet [("c1", 5), ("c2", 1)]) rfl).2.2.2.1 "c2" 1
      (by simp [feesFind, mapFind, sampleWallet]),
    ((Initialize_arms_every_fee _).2 (sampleWallet [("c1", 5), ("c2", 1)]) rfl).2.2.2.2 "c3"
      (by simp [feesFind, mapFind, sampleWallet]),
    (Initialize_arms_every_fee (sampleState none)).1 rfl⟩

/-! ## C7: registering the same id twice -/

theorem feesFind_insert (id : String) (fee : ℚ) (fees : List (String × ℚ)) :
    feesFind id (feesInsert id fee fees) = some ((feesFind id fees).getD fee) := by
  cases h : feesFind id fees with
  | none =>
    rw [feesInsert_of_absent _ _ _ h]
    simpa using feesFind_insertSorted_self _ _ _ h
  | some v =>
    rw [feesInsert_of_present _ _ _ _ h]
    simpa using h

theorem feesFind_insert_other (id k : String) (fee : ℚ) (fees : List (String × ℚ))
    (hk : k ≠ id) : feesFind k (feesInsert id fee fees) = feesFind k fees := by
  cases h : feesFind id fees with
  | none =>
    rw [feesInsert_of_absent _ _ _ h]
    exact feesFind_insertSorted_other _ _ _ _ hk
  | some v => rw [feesInsert_of_present _ _ _ _ h]

theorem feesInsert_twice (id : String) (a b : ℚ) (fees : List (String × ℚ)) :
    feesInsert id b (feesInsert id a fees) = feesInsert id a fees :=
  feesInsert_of_present _ _ _ _ (feesFind_insert id a fees)

/-- C7, as stated, fails: registering `c1` with 5 and then with 7 on an empty
fee map leaves `fees["c1"] = 5`, not 7. -/
theorem SaveTransferFee_second_amount_not_stored :
    (SaveTransferFee "c1" 7
      (SaveTransferFee "c1" 5 (sampleState (some (sampleWallet []))))).wallet =
      some (sampleWallet [("c1", 5)]) ∧
    feesFind "c1" (sampleWallet [("c1", 5)]).fees = some 5 ∧
    feesFind "c1" (sampleWallet [("c1", 5)]).fees ≠ some 7 := by
  refine ⟨?_, ?_, ?_⟩
  · simp [SaveTransferFee, StartTransferFeeTimer, emit, GetWallet, SetWallet, sampleState,
      sampleWallet, feesInsert, feesInsertSorted, mapFind]
  · simp [feesFind, mapFind, sampleWallet]
  · simp [feesFind, mapFind, sampleWallet]

/-- C7, amended: with a wallet record present, `SaveTransferFee(id, a)` followed
by `SaveTransferFee(id, b)` leaves the record exactly as the first call left
it: `fees[id]` is the amount stored before both calls if there was one, else
`a`; `b` is never stored. Every other key is untouched, a new id adds exactly
one pair, and the timer of `id` is armed at attempt 1. -/
theorem SaveTransferFee_twice_keeps_first (id : String) (a b : ℚ) (s : State)
    (wallet : ExternalWallet) (hwallet : s.wallet = some wallet) :
    (SaveTransferFee id b (SaveTransferFee id a s)).wallet =
      (SaveTransferFee id a s).wallet ∧
    (SaveTransferFee id b (SaveTransferFee id a s)).wallet =
      some { wallet with fees := feesInsert id a wallet.fees } ∧
    feesFind id (feesInsert id a wallet.fees) = some ((feesFind id wallet.fees).getD a) ∧
    (∀ k, k ≠ id → feesFind k (feesInsert id a wallet.fees) = feesFind k wallet.fees) ∧
    (feesFind id wallet.fees = none →
      (feesInsert id a wallet.fees).Perm ((id, a) :: wallet.fees)) ∧
    (∀ v, feesFind id wallet.fees = some v → feesInsert id a wallet.fees = wallet.fees) ∧
    timerFind id (SaveTransferFee id b (SaveTransferFee id a s)).transfer_fee_timers_ =
      some 1 ∧
    (∀ k, k ≠ id →
      timerFind k (SaveTransferFee id b (SaveTransferFee id a s)).transfer_fee_timers_ =
        timerFind k s.transfer_fee_timers_) := by
  have h2 : (SaveTransferFee id b (SaveTransferFee id a s)).wallet =
      some { wallet with fees := feesInsert id a wallet.fees } := by
    simp [SaveTransferFee, StartTransferFeeTimer, emit, GetWallet, SetWallet, hwallet,
      feesInsert_twice]
  have h1 : (SaveTransferFee id a s).wallet =
      some { wallet with fees := feesInsert id a wallet.fees } := by
    simp [SaveTransferFee, StartTransferFeeTimer, emit, GetWallet, SetWallet, hwallet]
  refine ⟨h2.trans h1.symm, h2, feesFind_insert id a _,
    fun k hk => feesFind_insert_other id k a _ hk, ?_, ?_, ?_, ?_⟩
  · intro hnone
    rw [feesInsert_of_absent _ _ _ hnone]
    exact feesInsertSorted_perm _ _ _
  · intro v hv
    exact feesInsert_of_present _ _ _ _ hv
  · simp [SaveTransferFee, StartTransferFeeTimer, emit, GetWallet, SetWallet, hwallet,
      timerFind_start_self]
  · intro k hk
    simp [SaveTransferFee, StartTransferFeeTimer, emit, GetWallet, SetWallet, hwallet,
      timerFind_start_other _ _ _ _ hk]

/-- C7 amended, at a concrete input: after registering `c1` with 5 and then with
7 the stored amount is 5 and the timer is armed at attempt 1. -/
theorem SaveTransferFee_twice_keeps_first_witness :
    (sampleState (some (sampleWallet []))).wallet = some (sampleWallet []) ∧
    feesFind "c1" (feesInsert "c1" 5 (sampleWallet []).fees) =
      some ((feesFind "c1" (sampleWallet []).fees).getD 5) ∧
    timerFind "c1"
      (SaveTransferFee "c1" 7
        (SaveTransferFee "c1" 5 (sampleState (some (sampleWallet []))))).transfer_fee_timers_ =
      some 1 :=
  ⟨rfl,
    (SaveTransferFee_twice_keeps_first "c1" 5 7 (sampleState (some (sampleWallet [])))
      (sampleWallet []) rfl).2.2.1,
    (SaveTransferFee_twice_keeps_first "c1" 5 7 (sampleState (some (sampleWallet [])))
      (sampleWallet []) rfl).2.2.2.2.2.2.1⟩

/-! ## C8: an expired credential on the fee path -/

/-- C8, as stated, fails: the fee transfer of the registered sample, started
at attempt 1, completes with `EXPIRED_TOKEN`, and a new timer is armed for the
id at attempt 2. -/
theorem expired_token_fee_is_rearmed :
    timerFind "c1" (fireTimer sampleEnv "c1" sampleRegistered).transfer_fee_timers_ = none ∧
    (fireTimer sampleEnv "c1" sampleRegistered).pending =
      [(feeTransaction sampleEnv 5, TransferCallback.fee "c1" 1)] ∧
    timerFind "c1"
      (completeTransfer 0 Result.EXPIRED_TOKEN ""
        (fireTimer sampleEnv "c1" sampleRegistered)).transfer_fee_timers_ = some 2 ∧
    timerFind "c1"
      (OnTransferFeeCompleted Result.EXPIRED_TOKEN "" "c1" 1
        (sampleState (some (sampleWallet [("c1", 5)])))).transfer_fee_timers_ = some 2 := by
  refine ⟨?_, ?_, ?_, ?_⟩
  · simp [fireTimer, sampleRegistered, timerFind, mapFind, OnTransferFeeTimerElapsed,
      GetWallet, TransferFee, transferStart, timerErase, mapErase]
  · simp [fireTimer, sampleRegistered, timerFind, mapFind, OnTransferFeeTimerElapsed,
      GetWallet, TransferFee, transferStart, timerErase, mapErase, feeTransaction]
  · simp [fireTimer, sampleRegistered, timerFind, mapFind, OnTransferFeeTimerElapsed,
      GetWallet, TransferFee, transferStart, timerErase, mapErase, completeTransfer,
      runTransferCallback, OnTransferFeeCompleted, StartTransferFeeTimer, emit, timerStart]
  · simp [sampleState, timerFind, mapFind, OnTransferFeeCompleted, StartTransferFeeTimer,
      emit, timerStart, mapErase]

/-- C8, amended: `OnTransferFeeCompleted` treats every result other than
`LEDGER_OK` alike, `EXPIRED_TOKEN` included: below attempt 3 the timer of the id
is re-armed at the next attempt, from attempt 3 on no timer is armed; in both
cases the wallet record and the pending transfers are unchanged and no transfer
is started. -/
theorem OnTransferFeeCompleted_failure_policy (result : Result) (transaction_id : String)
    (contribution_id : String) (attempts : Int) (s : State)
    (hresult : result ≠ Result.LEDGER_OK) :
    (OnTransferFeeCompleted result transaction_id contribution_id attempts s).wallet =
      s.wallet ∧
    (OnTransferFeeCompleted result transaction_id contribution_id attempts s).pending =
      s.pending ∧
    transfers (OnTransferFeeCompleted result transaction_id contribution_id attempts s).trace =
      transfers s.trace ∧
    (attempts < 3 →
      (OnTransferFeeCompleted result transaction_id contribution_id attempts
        s).transfer_fee_timers_ =
        timerStart contribution_id (attempts + 1) s.transfer_fee_timers_ ∧
      timerFind contribution_id
        (OnTransferFeeCompleted result transaction_id contribution_id attempts
          s).transfer_fee_timers_ = some (attempts + 1)) ∧
    (3 ≤ attempts →
      (OnTransferFeeCompleted result transaction_id contribution_id attempts
        s).transfer_fee_timers_ = s.transfer_fee_timers_) ∧
    (OnTransferFeeCompleted Result.EXPIRED_TOKEN transaction_id contribution_id attempts
        s).transfer_fee_timers_ =
      (OnTransferFeeCompleted result transaction_id contribution_id attempts
        s).transfer_fee_timers_ := by
  by_cases hlt : attempts < 3
  · have hge : ¬ (3 ≤ attempts) := by omega
    simp [OnTransferFeeCompleted, hresult, hlt, hge, StartTransferFeeTimer, emit, transfers,
      List.filterMap_append, timerFind_start_self]
  · have hge : 3 ≤ attempts := by omega
    simp [OnTransferFeeCompleted, hresult, hlt, hge, emit, transfers, List.filterMap_append]

/-- C8 amended, at a concrete input: `EXPIRED_TOKEN` at attempt 2 re-arms at
attempt 3. -/
theorem OnTransferFeeCompleted_failure_policy_witness :
    Result.EXPIRED_TOKEN ≠ Result.LEDGER_OK ∧ (2 : Int) < 3 ∧
    timerFind "c1"
      (OnTransferFeeCompleted Result.EXPIRED_TOKEN "" "c1" 2
        (sampleState (some (sampleWallet [("c1", 5)])))).transfer_fee_timers_ =
      some (2 + 1) :=
  ⟨by decide, by decide,
    ((OnTransferFeeCompleted_failure_policy Result.EXPIRED_TOKEN "" "c1" 2
      (sampleState (some (sampleWallet [("c1", 5)]))) (by decide)).2.2.2.1 (by decide)).2⟩

/-! ## C9: `DisconnectWallet` -/

/-- C9: with no wallet record `DisconnectWallet` returns the state as it is
(nothing written, notified or logged). With a record and no reason, the record
persisted is the reset record with status `NOT_CONNECTED` and regenerated
links, and the trace gains the log line, the status change from the status read
before the reset to `NOT_CONNECTED`, the `WalletDisconnected` call unless
shutting down, and the event-log row; no user notification is shown. For every
reason, shutting-down flag and notification text a record is persisted: the
reset record (status forced to `NOT_CONNECTED` only when no reason is given)
with regenerated links. -/
theorem DisconnectWallet_manual (env : Env) (notification : Option String) (s : State) :
    (s.wallet = none → DisconnectWallet env notification s = s) ∧
    (∀ wallet, s.wallet = some wallet →
      (DisconnectWallet env none s).wallet =
        some (GenerateLinks env
          { env.ResetWallet wallet with status := WalletStatus.NOT_CONNECTED }) ∧
      (GenerateLinks env
          { env.ResetWallet wallet with status := WalletStatus.NOT_CONNECTED }).status =
        WalletStatus.NOT_CONNECTED ∧
      (DisconnectWallet env none s).trace =
        s.trace ++
          [Effect.blog 1 "Disconnecting wallet",
            Effect.walletStatusChange wallet.status WalletStatus.NOT_CONNECTED] ++
          (if s.shutting_down then [] else [Effect.walletDisconnected env.kWalletUphold]) ++
          [Effect.saveEventLog env.kLogWalletDisconnected
            (env.kWalletUphold ++ (if wallet.address ≠ "" then "/" else "") ++
              wallet.address.take 5)] ∧
      (DisconnectWallet env notification s).wallet =
        some (GenerateLinks env
          (if notification.isNone then
            { env.ResetWallet wallet with status := WalletStatus.NOT_CONNECTED }
          else env.ResetWallet wallet)) ∧
      (DisconnectWallet env notification s).transfer_fee_timers_ = s.transfer_fee_timers_ ∧
      (DisconnectWallet env notification s).pending = s.pending) := by
  constructor
  · intro hw
    simp [DisconnectWallet, GetWallet, hw]
  · intro wallet hw
    refine ⟨?_, rfl, ?_, ?_, ?_, ?_⟩
    · cases hsd : s.shutting_down <;>
        simp [DisconnectWallet, GetWallet, hw, emit, SetWallet, hsd]
    · cases hsd : s.shutting_down <;>
        simp [DisconnectWallet, GetWallet, hw, emit, SetWallet, hsd]
    · cases notification with
      | none =>
        cases hsd : s.shutting_down <;>
          simp [DisconnectWallet, GetWallet, hw, emit, SetWallet, hsd]
      | some text =>
        cases hsd : s.shutting_down <;> by_cases ht : text = "" <;>
          simp [DisconnectWallet, GetWallet, hw, emit, SetWallet, hsd, ht]
    · cases notification with
      | none =>
        cases hsd : s.shutting_down <;>
          simp [DisconnectWallet, GetWallet, hw, emit, SetWallet, hsd]
      | some text =>
        cases hsd : s.shutting_down <;> by_cases ht : text = "" <;>
          simp [DisconnectWallet, GetWallet, hw, emit, SetWallet, hsd, ht]
    · cases notification with
      | none =>
        cases hsd : s.shutting_down <;>
          simp [DisconnectWallet, GetWallet, hw, emit, SetWallet, hsd]
      | some text =>
        cases hsd : s.shutting_down <;> by_cases ht : text = "" <;>
          simp [DisconnectWallet, GetWallet, hw, emit, SetWallet, hsd, ht]

/-- C9 at concrete inputs: a manual disconnect of the verified sample wallet
persists status `NOT_CONNECTED` and reports `VERIFIED` to `NOT_CONNECTED`; with no
record the state is returned unchanged. -/
theorem DisconnectWallet_manual_witness :
    DisconnectWallet sampleEnv none (sampleState none) = sampleState none ∧
    (DisconnectWallet sampleEnv none (sampleState (some (sampleWallet [("c1", 5)])))).wallet =
      some (GenerateLinks sampleEnv
        { sampleEnv.ResetWallet (sampleWallet [("c1", 5)]) with
          status := WalletStatus.NOT_CONNECTED }) ∧
    (DisconnectWallet sampleEnv none (sampleState (some (sampleWallet [("c1", 5)])))).trace =
      (sampleState (some (sampleWallet [("c1", 5)]))).trace ++
        [Effect.blog 1 "Disconnecting wallet",
          Effect.walletStatusChange (sampleWallet [("c1", 5)]).status
            WalletStatus.NOT_CONNECTED] ++
        (if (sampleState (some (sampleWallet [("c1", 5)]))).shutting_down then []
          else [Effect.walletDisconnected sampleEnv.kWalletUphold]) ++
        [Effect.saveEventLog sampleEnv.kLogWalletDisconnected
          (sampleEnv.kWalletUphold ++
            (if (sampleWallet [("c1", 5)]).address ≠ "" then "/" else "") ++
            (sampleWallet [("c1", 5)]).address.take 5)] :=
  ⟨(DisconnectWallet_manual sampleEnv none (sampleState none)).1 rfl,
    ((DisconnectWallet_manual sampleEnv none
      (sampleState (some (sampleWallet [("c1", 5)])))).2 _ rfl).1,
    ((DisconnectWallet_manual sampleEnv none
      (sampleState (some (sampleWallet [("c1", 5)])))).2 _ rfl).2.2.1⟩

/-! ## C10: status gating before the network call -/

/-- C10: `FetchBalance` with no record, or with a record whose status is not
`VERIFIED`, logs one line and runs the callback with `(LEDGER_OK, 0)`; only with
status `VERIFIED` does it send the card request (address and token of the
record). `GetCapabilities` with no record, or with a status that is neither
`PENDING` nor `VERIFIED`, logs one line and runs the callback with
`LEDGER_ERROR` and the empty capability set; only with status `PENDING` or
`VERIFIED` does it send the capability request. In the gated cases the list of
network requests is unchanged; the record, the timers and the pending transfers
are never touched. -/
theorem status_gating (callback : Nat) (s : State) :
    ((s.wallet = none →
        (FetchBalance callback s).trace =
          s.trace ++ [Effect.blog 1 "Uphold wallet is null.",
            Effect.balanceCallback callback Result.LEDGER_OK 0] ∧
        networkRequests (FetchBalance callback s).trace = networkRequests s.trace) ∧
      (∀ wallet, s.wallet = some wallet → wallet.status ≠ WalletStatus.VERIFIED →
        (FetchBalance callback s).trace =
          s.trace ++ [Effect.blog 1 "Uphold wallet is not VERIFIED.",
            Effect.balanceCallback callback Result.LEDGER_OK 0] ∧
        networkRequests (FetchBalance callback s).trace = networkRequests s.trace) ∧
      (∀ wallet, s.wallet = some wallet → wallet.status = WalletStatus.VERIFIED →
        (FetchBalance callback s).trace =
          s.trace ++ [Effect.cardRequest wallet.address wallet.token callback]) ∧
      (FetchBalance callback s).wallet = s.wallet ∧
      (FetchBalance callback s).transfer_fee_timers_ = s.transfer_fee_timers_ ∧
      (FetchBalance callback s).pending = s.pending) ∧
    ((s.wallet = none →
        (GetCapabilities callback s).trace =
          s.trace ++ [Effect.blog 0 "Uphold wallet is null!",
            Effect.capabilitiesCallback callback Result.LEDGER_ERROR
              (Capabilities.mk none none)] ∧
        networkRequests (GetCapabilities callback s).trace = networkRequests s.trace) ∧
      (∀ wallet, s.wallet = some wallet → wallet.status ≠ WalletStatus.PENDING →
        wallet.status ≠ WalletStatus.VERIFIED →
        (GetCapabilities callback s).trace =
          s.trace ++
            [Effect.blog 0 "Uphold wallet is neither in PENDING, nor in VERIFIED state!",
              Effect.capabilitiesCallback callback Result.LEDGER_ERROR
                (Capabilities.mk none none)] ∧
        networkRequests (GetCapabilities callback s).trace = networkRequests s.trace) ∧
      (∀ wallet, s.wallet = some wallet →
        wallet.status = WalletStatus.PENDING ∨ wallet.status = WalletStatus.VERIFIED →
        (GetCapabilities callback s).trace =
          s.trace ++ [Effect.capabilitiesRequest wallet.token callback]) ∧
      (GetCapabilities callback s).wallet = s.wallet ∧
      (GetCapabilities callback s).transfer_fee_timers_ = s.transfer_fee_timers_ ∧
      (GetCapabilities callback s).pending = s.pending) := by
  refine ⟨⟨?_, ?_, ?_, ?_, ?_, ?_⟩, ⟨?_, ?_, ?_, ?_, ?_, ?_⟩⟩
  · intro hw
    simp [FetchBalance, GetWallet, hw, emit, networkRequests, List.filter_append]
  · intro wallet hw hst
    simp [FetchBalance, GetWallet, hw, hst, emit, networkRequests, List.filter_append]
  · intro wallet hw hst
    simp [FetchBalance, GetWallet, hw, hst, emit]
  · unfold FetchBalance
    cases hw : s.wallet with
    | none => simp [GetWallet, hw, emit]
    | some wallet => by_cases hst : wallet.status = WalletStatus.VERIFIED <;>
        simp [GetWallet, hw, hst, emit]
  · unfold FetchBalance
    cases hw : s.wallet with
    | none => simp [GetWallet, hw, emit]
    | some wallet => by_cases hst : wallet.status = WalletStatus.VERIFIED <;>
        simp [GetWallet, hw, hst, emit]
  · unfold FetchBalance
    cases hw : s.wallet with
    | none => simp [GetWallet, hw, emit]
    | some wallet => by_cases hst : wallet.status = WalletStatus.VERIFIED <;>
        simp [GetWallet, hw, hst, emit]
  · intro hw
    simp [GetCapabilities, GetWallet, hw, emit, networkRequests, List.filter_append]
  · intro wallet hw hp hv
    simp [GetCapabilities, GetWallet, hw, hp, hv, emit, networkRequests, List.filter_append]
  · intro wallet hw hst
    rcases hst with hst | hst <;> simp [GetCapabilities, GetWallet, hw, hst, emit]
  · unfold GetCapabilities
    cases hw : s.wallet with
    | none => simp [GetWallet, hw, emit]
    | some wallet =>
      by_cases hst : wallet.status ≠ WalletStatus.PENDING ∧
          wallet.status ≠ WalletStatus.VERIFIED <;> simp [GetWallet, hw, hst, emit]
  · unfold GetCapabilities
    cases hw : s.wallet with
    | none => simp [GetWallet, hw, emit]
    | some wallet =>
      by_cases hst : wallet.status ≠ WalletStatus.PENDING ∧
          wallet.status ≠ WalletStatus.VERIFIED <;> simp [GetWallet, hw, hst, emit]
  · unfold GetCapabilities
    cases hw : s.wallet with
    | none => simp [GetWallet, hw, emit]
    | some wallet =>
      by_cases hst : wallet.status ≠ WalletStatus.PENDING ∧
          wallet.status ≠ WalletStatus.VERIFIED <;> simp [GetWallet, hw, hst, emit]

/-- C10 at concrete inputs: on a `PENDING` wallet `FetchBalance` answers
`(LEDGER_OK, 0)` without a request and `GetCapabilities` sends its request; on a
`NOT_CONNECTED` wallet `GetCapabilities` answers without a request. -/
theorem status_gating_witness :
    (FetchBalance 7
      (sampleState (some { sampleWallet [] with status := WalletStatus.PENDING }))).trace =
      (sampleState (some { sampleWallet [] with status := WalletStatus.PENDING })).trace ++
        [Effect.blog 1 "Uphold wallet is not VERIFIED.",
          Effect.balanceCallback 7 Result.LEDGER_OK 0] ∧
    (GetCapabilities 7
      (sampleState (some { sampleWallet [] with status := WalletStatus.PENDING }))).trace =
      (sampleState (some { sampleWallet [] with status := WalletStatus.PENDING })).trace ++
        [Effect.capabilitiesRequest
          ({ sampleWallet [] with status := WalletStatus.PENDING } : ExternalWallet).token 7] ∧
    networkRequests (GetCapabilities 7
      (sampleState (some { sampleWallet [] with status := WalletStatus.NOT_CONNECTED }))).trace =
      networkRequests
        (sampleState (some { sampleWallet [] with status := WalletStatus.NOT_CONNECTED })).trace :=
  ⟨((status_gating 7
      (sampleState (some { sampleWallet [] with status := WalletStatus.PENDING }))).1.2.1
      _ rfl (by decide)).1,
    (status_gating 7
      (sampleState (some { sampleWallet [] with status := WalletStatus.PENDING }))).2.2.2.1
      _ rfl (Or.inl rfl),
    ((status_gating 7
      (sampleState (some { sampleWallet [] with status := WalletStatus.NOT_CONNECTED }))).2.2.1
      _ rfl (by decide) (by decide)).2⟩

/-! ## C11: what happens when the network call completes -/

/-- C11, as stated, fails for `GetCapabilities`: on the verified sample wallet
the capability request completes with `EXPIRED_TOKEN` and the caller is answered
at once, with no status change reported and the record still `VERIFIED`
(`FetchBalance` on the same state does disconnect); and with the record gone at
completion time the caller still receives `LEDGER_OK`. -/
theorem GetCapabilities_completion_unchecked :
    (completeLastRequest sampleEnv Result.EXPIRED_TOKEN 0 (Capabilities.mk none none)
      (GetCapabilities 7 (sampleState (some (sampleWallet []))))).trace =
      [Effect.capabilitiesRequest "token" 7,
        Effect.capabilitiesCallback 7 Result.EXPIRED_TOKEN (Capabilities.mk none none)] ∧
    (completeLastRequest sampleEnv Result.EXPIRED_TOKEN 0 (Capabilities.mk none none)
      (GetCapabilities 7 (sampleState (some (sampleWallet []))))).wallet =
      some (sampleWallet []) ∧
    (sampleWallet []).status = WalletStatus.VERIFIED ∧
    (completeLastRequest sampleEnv Result.EXPIRED_TOKEN 0 (Capabilities.mk none none)
      (FetchBalance 7 (sampleState (some (sampleWallet []))))).wallet =
      some (GenerateLinks sampleEnv (sampleEnv.ResetWallet (sampleWallet []))) ∧
    (completeLastRequest sampleEnv Result.LEDGER_OK 0 (Capabilities.mk (some true) (some true))
      { GetCapabilities 7 (sampleState (some (sampleWallet []))) with wallet := none }).trace =
      [Effect.capabilitiesRequest "token" 7,
        Effect.capabilitiesCallback 7 Result.LEDGER_OK
          (Capabilities.mk (some true) (some true))] := by
  refine ⟨?_, ?_, rfl, ?_, ?_⟩
  · simp [completeLastRequest, completeRequest, GetCapabilities, GetWallet, sampleState,
      sampleWallet, emit, networkRequests]
  · simp [completeLastRequest, completeRequest, GetCapabilities, GetWallet, sampleState,
      sampleWallet, emit, networkRequests]
  · simp [completeLastRequest, completeRequest, FetchBalance, OnFetchBalance, GetWallet,
      sampleState, sampleWallet, emit, networkRequests, DisconnectWallet, SetWallet,
      sampleEnv]
  · simp [completeLastRequest, completeRequest, GetCapabilities, GetWallet, sampleState,
      sampleWallet, emit, networkRequests]

theorem networkRequests_last_card (trace : List Effect) (address token : String)
    (callback : Nat) :
    (networkRequests (trace ++ [Effect.cardRequest address token callback])).getLast? =
      some (Effect.cardRequest address token callback) := by
  simp [networkRequests, List.filter_append]

theorem networkRequests_last_capabilities (trace : List Effect) (token : String)
    (callback : Nat) :
    (networkRequests (trace ++ [Effect.capabilitiesRequest token callback])).getLast? =
      some (Effect.capabilitiesRequest token callback) := by
  simp [networkRequests, List.filter_append]

/-- C11, amended. `FetchBalance` on a `VERIFIED` record sends the card request
with `OnFetchBalance` bound as its completion, so when the endpoint answers,
`OnFetchBalance` runs on the state of that moment and reads the record again:
with no record, or a status other than `VERIFIED`, the caller gets
`(LEDGER_ERROR, 0)` and the record is left alone; with status `VERIFIED` and
result `EXPIRED_TOKEN` it runs `DisconnectWallet` with the present reason
`kWalletDisconnected` (status change reported, reset record persisted) and only
then answers the caller with `(EXPIRED_TOKEN, 0)`; any other failure gives
`(LEDGER_ERROR, 0)` and success gives `(LEDGER_OK, available)`.
`GetCapabilities` on a `PENDING` or `VERIFIED` record sends the capability
request with the caller's own callback as its completion: when the endpoint
answers, whatever the record has become in between (`later`), the only effect
is that callback run with the endpoint's result as it is; the record is not
read, no status is checked, nothing is disconnected, `EXPIRED_TOKEN`
included. -/
theorem network_completion (env : Env) (address token : String) (callback : Nat)
    (result : Result) (available : ℚ) (capabilities : Capabilities) (s : State) :
    (s.wallet = none →
      completeRequest env (Effect.cardRequest address token callback) result available
          capabilities s =
        emit (Effect.balanceCallback callback Result.LEDGER_ERROR 0)
          (emit (Effect.blog 0 "Uphold wallet is null!") s)) ∧
    (∀ wallet, s.wallet = some wallet → wallet.status ≠ WalletStatus.VERIFIED →
      completeRequest env (Effect.cardRequest address token callback) result available
          capabilities s =
        emit (Effect.balanceCallback callback Result.LEDGER_ERROR 0)
          (emit (Effect.blog 0 "Wallet status should have been VERIFIED!") s)) ∧
    (∀ wallet, s.wallet = some wallet → wallet.status = WalletStatus.VERIFIED →
      (completeRequest env (Effect.cardRequest address token callback) Result.EXPIRED_TOKEN
          available capabilities s =
        emit (Effect.balanceCallback callback Result.EXPIRED_TOKEN 0)
          (DisconnectWallet env (some env.kNotificationWalletDisconnected)
            (emit (Effect.blog 0 "Expired token") s)) ∧
      (completeRequest env (Effect.cardRequest address token callback) Result.EXPIRED_TOKEN
          available capabilities s).wallet =
        some (GenerateLinks env (env.ResetWallet wallet)) ∧
      (completeRequest env (Effect.cardRequest address token callback) Result.EXPIRED_TOKEN
          available capabilities s).trace =
        s.trace ++
          [Effect.blog 0 "Expired token", Effect.blog 1 "Disconnecting wallet",
            Effect.walletStatusChange WalletStatus.VERIFIED (env.ResetWallet wallet).status] ++
          (if s.shutting_down = false ∧ env.kNotificationWalletDisconnected ≠ "" then
            [Effect.showNotification env.kNotificationWalletDisconnected ["Uphold"]]
          else []) ++
          (if s.shutting_down then [] else [Effect.walletDisconnected env.kWalletUphold]) ++
          [Effect.saveEventLog env.kLogWalletDisconnected
            (env.kWalletUphold ++ (if wallet.address ≠ "" then "/" else "") ++
              wallet.address.take 5),
            Effect.balanceCallback callback Result.EXPIRED_TOKEN 0]) ∧
      (result ≠ Result.EXPIRED_TOKEN → result ≠ Result.LEDGER_OK →
        completeRequest env (Effect.cardRequest address token callback) result available
            capabilities s =
          emit (Effect.balanceCallback callback Result.LEDGER_ERROR 0)
            (emit (Effect.blog 0 "Couldn't get balance") s)) ∧
      completeRequest env (Effect.cardRequest address token callback) Result.LEDGER_OK
          available capabilities s =
        emit (Effect.balanceCallback callback Result.LEDGER_OK available) s) ∧
    completeRequest env (Effect.capabilitiesRequest token callback) result available
        capabilities s =
      emit (Effect.capabilitiesCallback callback result capabilities) s ∧
    (completeRequest env (Effect.capabilitiesRequest token callback) result available
        capabilities s).wallet = s.wallet ∧
    (completeRequest env (Effect.capabilitiesRequest token callback) result available
        capabilities s).trace =
      s.trace ++ [Effect.capabilitiesCallback callback result capabilities] ∧
    (∀ wallet, s.wallet = some wallet → wallet.status = WalletStatus.VERIFIED →
      ∀ later : Option ExternalWallet,
        completeLastRequest env result available capabilities
            { FetchBalance callback s with wallet := later } =
          OnFetchBalance env callback result available
            { FetchBalance callback s with wallet := later } ∧
        (FetchBalance callback s).trace =
          s.trace ++ [Effect.cardRequest wallet.address wallet.token callback]) ∧
    (∀ wallet, s.wallet = some wallet →
      wallet.status = WalletStatus.PENDING ∨ wallet.status = WalletStatus.VERIFIED →
      ∀ later : Option ExternalWallet,
        completeLastRequest env result available capabilities
            { GetCapabilities callback s with wallet := later } =
          { s with
            wallet := later
            trace := s.trace ++
              [Effect.capabilitiesRequest wallet.token callback,
                Effect.capabilitiesCallback callback result capabilities] } ∧
        (completeLastRequest env result available capabilities
            { GetCapabilities callback s with wallet := later }).wallet = later ∧
        (completeLastRequest env result available capabilities
            { GetCapabilities callback s with wallet := later }).trace =
          s.trace ++
            [Effect.capabilitiesRequest wallet.token callback,
              Effect.capabilitiesCallback callback result capabilities] ∧
        completeLastRequest env result available capabilities (GetCapabilities callback s) =
          { s with
            trace := s.trace ++
              [Effect.capabilitiesRequest wallet.token callback,
                Effect.capabilitiesCallback callback result capabilities] }) := by
  refine ⟨?_, ?_, ?_, rfl, rfl, rfl, ?_, ?_⟩
  · intro hw
    simp [completeRequest, OnFetchBalance, GetWallet, hw]
  · intro wallet hw hst
    simp [completeRequest, OnFetchBalance, GetWallet, hw, hst]
  · intro wallet hw hst
    refine ⟨⟨?_, ?_, ?_⟩, ?_, ?_⟩
    · simp [completeRequest, OnFetchBalance, GetWallet, hw, hst]
    · cases hsd : s.shutting_down <;>
        by_cases ht : env.kNotificationWalletDisconnected = "" <;>
        simp [completeRequest, OnFetchBalance, GetWallet, hw, hst, DisconnectWallet, emit,
          SetWallet, hsd, ht]
    · cases hsd : s.shutting_down <;>
        by_cases ht : env.kNotificationWalletDisconnected = "" <;>
        simp [completeRequest, OnFetchBalance, GetWallet, hw, hst, DisconnectWallet, emit,
          SetWallet, hsd, ht]
    · intro hexp hok
      simp [completeRequest, OnFetchBalance, GetWallet, hw, hst, hexp, hok]
    · simp [completeRequest, OnFetchBalance, GetWallet, hw, hst]
  · intro wallet hw hst later
    have htrace : (FetchBalance callback s).trace =
        s.trace ++ [Effect.cardRequest wallet.address wallet.token callback] := by
      simp [FetchBalance, GetWallet, hw, hst, emit]
    refine ⟨?_, htrace⟩
    simp only [completeLastRequest, htrace, networkRequests_last_card, completeRequest]
  · intro wallet hw hst later
    have htrace : (GetCapabilities callback s).trace =
        s.trace ++ [Effect.capabilitiesRequest wallet.token callback] := by
      rcases hst with hst | hst <;> simp [GetCapabilities, GetWallet, hw, hst, emit]
    have hrest : GetCapabilities callback s =
        { s with trace := s.trace ++ [Effect.capabilitiesRequest wallet.token callback] } := by
      rcases hst with hst | hst <;> simp [GetCapabilities, GetWallet, hw, hst, emit]
    have hlater : completeLastRequest env result available capabilities
          { GetCapabilities callback s with wallet := later } =
        { s with
          wallet := later
          trace := s.trace ++
            [Effect.capabilitiesRequest wallet.token callback,
              Effect.capabilitiesCallback callback result capabilities] } := by
      simp only [completeLastRequest, htrace, networkRequests_last_capabilities,
        completeRequest, emit]
      rw [hrest]
      simp
    refine ⟨hlater, ?_, ?_, ?_⟩
    · rw [hlater]
    · rw [hlater]
    · simp only [completeLastRequest, htrace, networkRequests_last_capabilities,
        completeRequest, emit]
      rw [hrest]
      simp

/-- C11 amended, at a concrete input: on the verified sample wallet the card
request that completes with `EXPIRED_TOKEN` runs `DisconnectWallet` with the
reason `kWalletDisconnected` before the caller's callback, while the capability
request sent by `GetCapabilities` that completes with `EXPIRED_TOKEN` only runs
the caller's callback. -/
theorem network_completion_witness :
    (sampleState (some (sampleWallet []))).wallet = some (sampleWallet []) ∧
    (sampleWallet []).status = WalletStatus.VERIFIED ∧
    completeRequest sampleEnv (Effect.cardRequest "card-0001" "token" 7)
        Result.EXPIRED_TOKEN 3 (Capabilities.mk none none)
        (sampleState (some (sampleWallet []))) =
      emit (Effect.balanceCallback 7 Result.EXPIRED_TOKEN 0)
        (DisconnectWallet sampleEnv (some sampleEnv.kNotificationWalletDisconnected)
          (emit (Effect.blog 0 "Expired token") (sampleState (some (sampleWallet []))))) ∧
    (completeLastRequest sampleEnv Result.EXPIRED_TOKEN 3 (Capabilities.mk none none)
        { GetCapabilities 7 (sampleState (some (sampleWallet []))) with
          wallet := some (sampleWallet []) }).trace =
      (sampleState (some (sampleWallet []))).trace ++
        [Effect.capabilitiesRequest (sampleWallet []).token 7,
          Effect.capabilitiesCallback 7 Result.EXPIRED_TOKEN (Capabilities.mk none none)] ∧
    (completeLastRequest sampleEnv Result.EXPIRED_TOKEN 3 (Capabilities.mk none none)
        { GetCapabilities 7 (sampleState (some (sampleWallet []))) with
          wallet := some (sampleWallet []) }).wallet = some (sampleWallet []) :=
  ⟨rfl, rfl,
    ((network_completion sampleEnv "card-0001" "token" 7 Result.EXPIRED_TOKEN 3
      (Capabilities.mk none none) (sampleState (some (sampleWallet [])))).2.2.1
      (sampleWallet []) rfl rfl).1.1,
    ((network_completion sampleEnv "card-0001" "token" 7 Result.EXPIRED_TOKEN 3
      (Capabilities.mk none none) (sampleState (some (sampleWallet [])))).2.2.2.2.2.2.2
      (sampleWallet []) rfl (Or.inr rfl) (some (sampleWallet []))).2.2.1,
    ((network_completion sampleEnv "card-0001" "token" 7 Result.EXPIRED_TOKEN 3
      (Capabilities.mk none none) (sampleState (some (sampleWallet [])))).2.2.2.2.2.2.2
      (sampleWallet []) rfl (Or.inr rfl) (some (sampleWallet []))).2.1⟩

/-! ## C12: timers and fee transfers in flight -/

/-- C12, as stated, fails: from a fresh controller, registering the fee of `c1`,
letting its timer fire, calling `Initialize` and letting the new timer fire
starts a second fee transfer for `c1` while the first is still pending. -/
theorem second_fee_transfer_while_pending :
    (run sampleEnv [Step.saveTransferFee "c1" 5, Step.timerFires "c1"]
      (initialState (some (sampleWallet [])) false)).pending =
      [(feeTransaction sampleEnv 5, TransferCallback.fee "c1" 1)] ∧
    (run sampleEnv
      [Step.saveTransferFee "c1" 5, Step.timerFires "c1", Step.init, Step.timerFires "c1"]
      (initialState (some (sampleWallet [])) false)).pending =
      [(feeTransaction sampleEnv 5, TransferCallback.fee "c1" 1),
        (feeTransaction sampleEnv 5, TransferCallback.fee "c1" 1)] ∧
    feeTransfersInFlight "c1"
      (run sampleEnv
        [Step.saveTransferFee "c1" 5, Step.timerFires "c1", Step.init, Step.timerFires "c1"]
        (initialState (some (sampleWallet [])) false)).pending = 2 := by
  have h1 : (run sampleEnv [Step.saveTransferFee "c1" 5, Step.timerFires "c1"]
      (initialState (some (sampleWallet [])) false)).pending =
      [(feeTransaction sampleEnv 5, TransferCallback.fee "c1" 1)] := by
    simp [run, step, initialState, sampleWallet, SaveTransferFee, StartTransferFeeTimer, emit,
      GetWallet, SetWallet, feesInsert, feesInsertSorted, mapFind, fireTimer, timerFind,
      timerStart, mapErase, OnTransferFeeTimerElapsed, timerErase, TransferFee,
      transferStart, feeTransaction]
  have h2 : (run sampleEnv
      [Step.saveTransferFee "c1" 5, Step.timerFires "c1", Step.init, Step.timerFires "c1"]
      (initialState (some (sampleWallet [])) false)).pending =
      [(feeTransaction sampleEnv 5, TransferCallback.fee "c1" 1),
        (feeTransaction sampleEnv 5, TransferCallback.fee "c1" 1)] := by
    simp [run, step, initialState, sampleWallet, SaveTransferFee, StartTransferFeeTimer, emit,
      GetWallet, SetWallet, feesInsert, feesInsertSorted, mapFind, fireTimer, timerFind,
      timerStart, mapErase, OnTransferFeeTimerElapsed, timerErase, TransferFee,
      transferStart, feeTransaction, Initialize]
  refine ⟨h1, h2, ?_⟩
  rw [h2]
  simp [feeTransfersInFlight, isFeeCallbackFor]

theorem armedTimers_cons (k : String) (t : String × Int) (rest : List (String × Int)) :
    armedTimers k (t :: rest) = armedTimers k rest + (if t.1 = k then 1 else 0) := by
  simp [armedTimers, List.countP_cons]

theorem armedTimers_erase (id k : String) (timers : List (String × Int)) :
    armedTimers k (mapErase id timers) = if k = id then 0 else armedTimers k timers := by
  induction timers with
  | nil => simp [mapErase, armedTimers]
  | cons t rest ih =>
    by_cases hid : t.1 = id
    · have hcons : mapErase id (t :: rest) = mapErase id rest := by simp [mapErase, hid]
      rw [hcons, ih, armedTimers_cons]
      by_cases hk : k = id
      · simp [hk]
      · have htk : t.1 ≠ k := fun h => hk (h ▸ hid)
        simp [hk, htk]
    · have hcons : mapErase id (t :: rest) = t :: mapErase id rest := by simp [mapErase, hid]
      rw [hcons, armedTimers_cons, ih, armedTimers_cons]
      by_cases hk : k = id
      · have htk : t.1 ≠ k := fun h => hid (h.trans hk)
        simp [hk, hid]
      · simp [hk]

theorem armedTimers_start (id k : String) (attempts : Int) (timers : List (String × Int)) :
    armedTimers k (timerStart id attempts timers) =
      if k = id then 1 else armedTimers k timers := by
  have h := armedTimers_erase id k timers
  simp only [armedTimers] at h
  by_cases hk : k = id
  · subst hk
    simp [timerStart, armedTimers, List.countP_append, h]
  · have hik : id ≠ k := fun e => hk e.symm
    simp [timerStart, armedTimers, List.countP_append, h, hk, hik]

theorem armedTimers_pos_of_find (id : String) (attempts : Int)
    (timers : List (String × Int)) (h : timerFind id timers = some attempts) :
    1 ≤ armedTimers id timers := by
  induction timers with
  | nil => simp [timerFind, mapFind] at h
  | cons t rest ih =>
    rw [armedTimers_cons]
    by_cases ht : t.1 = id
    · simp [ht]
    · simp only [timerFind, mapFind, ht, if_false] at h
      have := ih h
      omega

theorem countP_eraseIdx_of_get {α : Type} (q : α → Bool) (l : List α) :
    ∀ (i : Nat) (p : α), l.get? i = some p →
      List.countP q l = List.countP q (l.eraseIdx i) + (if q p then 1 else 0) := by
  induction l with
  | nil => intro i p h; simp at h
  | cons x rest ih =>
    intro i p h
    cases i with
    | zero =>
      simp at h
      subst h
      simp [List.countP_cons]
    | succ n =>
      simp at h
      have := ih n p (by simpa using h)
      simp only [List.eraseIdx_cons_succ, List.countP_cons, this]
      omega

theorem StartTransferFeeTimer_fields (fee_id : String) (attempts : Int) (s : State) :
    (StartTransferFeeTimer fee_id attempts s).transfer_fee_timers_ =
      timerStart fee_id attempts s.transfer_fee_timers_ ∧
    (StartTransferFeeTimer fee_id attempts s).pending = s.pending ∧
    (StartTransferFeeTimer fee_id attempts s).wallet = s.wallet := by
  simp [StartTransferFeeTimer, emit]

theorem SaveTransferFee_fields (contribution_id : String) (fee : ℚ) (s : State) :
    (SaveTransferFee contribution_id fee s).transfer_fee_timers_ =
      timerStart contribution_id 1 s.transfer_fee_timers_ ∧
    (SaveTransferFee contribution_id fee s).pending = s.pending := by
  unfold SaveTransferFee
  cases hw : s.wallet <;> simp [StartTransferFeeTimer, emit, GetWallet, SetWallet, hw]

theorem Initialize_loop_armed (fees : List (String × ℚ)) :
    ∀ s : State,
      (fees.foldl (fun st value => StartTransferFeeTimer value.1 1 st) s).pending =
        s.pending ∧
      ∀ k, armedTimers k
          (fees.foldl (fun st value => StartTransferFeeTimer value.1 1 st)
            s).transfer_fee_timers_ =
        if (feesFind k fees).isSome then 1 else armedTimers k s.transfer_fee_timers_ := by
  induction fees with
  | nil => intro s; simp [feesFind, mapFind]
  | cons kv rest ih =>
    intro s
    obtain ⟨h1, h2⟩ := ih (StartTransferFeeTimer kv.1 1 s)
    simp only [List.foldl_cons]
    refine ⟨h1.trans (StartTransferFeeTimer_fields _ _ _).2.1, ?_⟩
    intro k
    rw [h2 k, (StartTransferFeeTimer_fields _ _ _).1, armedTimers_start]
    by_cases hk : kv.1 = k
    · subst hk
      simp [feesFind, mapFind]
    · have hk2 : k ≠ kv.1 := fun h => hk h.symm
      simp [feesFind, mapFind, hk, hk2]

theorem OnTransferFeeTimerElapsed_fields (env : Env) (id : String) (attempts : Int)
    (s : State) :
    (OnTransferFeeTimerElapsed env id attempts s).transfer_fee_timers_ =
      timerErase id s.transfer_fee_timers_ ∧
    ((OnTransferFeeTimerElapsed env id attempts s).pending = s.pending ∨
      ∃ amount, (OnTransferFeeTimerElapsed env id attempts s).pending =
        s.pending ++ [(feeTransaction env amount, TransferCallback.fee id attempts)]) := by
  unfold OnTransferFeeTimerElapsed
  cases hw : s.wallet with
  | none => simp [GetWallet, hw, emit]
  | some wallet =>
    cases hm : mapFind id wallet.fees with
    | none =>
      have hf : wallet.fees.find? (fun value => value.1 == id) = none := by
        rw [mapFind_find, hm]; rfl
      simp [GetWallet, hw, hf]
    | some amount =>
      have hf : wallet.fees.find? (fun value => value.1 == id) = some (id, amount) := by
        rw [mapFind_find, hm]; rfl
      refine ⟨by simp [GetWallet, hw, hf, TransferFee, transferStart], Or.inr ⟨amount, ?_⟩⟩
      simp [GetWallet, hw, hf, TransferFee, transferStart, feeTransaction]

theorem OnTransferFeeCompleted_fields (result : Result) (transaction_id : String)
    (contribution_id : String) (attempts : Int) (s : State) :
    (OnTransferFeeCompleted result transaction_id contribution_id attempts s).pending =
      s.pending ∧
    ((OnTransferFeeCompleted result transaction_id contribution_id attempts
        s).transfer_fee_timers_ = s.transfer_fee_timers_ ∨
      (OnTransferFeeCompleted result transaction_id contribution_id attempts
        s).transfer_fee_timers_ =
        timerStart contribution_id (attempts + 1) s.transfer_fee_timers_) := by
  unfold OnTransferFeeCompleted
  by_cases hr : result = Result.LEDGER_OK
  · cases hw : s.wallet <;> simp [hr, RemoveTransferFee, GetWallet, SetWallet, emit, hw]
  · by_cases ha : attempts < 3 <;> simp [hr, ha, StartTransferFeeTimer, emit]

theorem ContributionCompleted_fields (result : Result) (transaction_id : String)
    (contribution_id : String) (fee : ℚ) (publisher_key : String) (callback : Nat)
    (s : State) :
    (ContributionCompleted result transaction_id contribution_id fee publisher_key callback
      s).pending = s.pending ∧
    ((ContributionCompleted result transaction_id contribution_id fee publisher_key callback
        s).transfer_fee_timers_ = s.transfer_fee_timers_ ∨
      (ContributionCompleted result transaction_id contribution_id fee publisher_key callback
        s).transfer_fee_timers_ = timerStart contribution_id 1 s.transfer_fee_timers_) := by
  unfold ContributionCompleted
  by_cases hr : result = Result.LEDGER_OK
  · have h := SaveTransferFee_fields contribution_id fee s
    by_cases hk : publisher_key = "" <;> simp [hr, hk, emit, h.1, h.2]
  · simp [hr, emit]

theorem armedTimers_start_le_one (id : String) (attempts : Int)
    (timers : List (String × Int)) (h : ∀ k, armedTimers k timers ≤ 1) :
    ∀ k, armedTimers k (timerStart id attempts timers) ≤ 1 := by
  intro k
  rw [armedTimers_start]
  split
  · exact le_refl 1
  · exact h k

theorem armedTimers_erase_le_one (id : String) (timers : List (String × Int))
    (h : ∀ k, armedTimers k timers ≤ 1) :
    ∀ k, armedTimers k (timerErase id timers) ≤ 1 := by
  intro k
  simp only [timerErase]
  rw [armedTimers_erase]
  split
  · exact Nat.zero_le 1
  · exact h k

/-- Every event keeps at most one armed timer per id. -/
theorem step_keeps_one_timer (env : Env) (e : Step) (s : State)
    (h : ∀ k, armedTimers k s.transfer_fee_timers_ ≤ 1) :
    ∀ k, armedTimers k (step env e s).transfer_fee_timers_ ≤ 1 := by
  cases e with
  | init =>
    intro k
    simp only [step, Initialize, GetWallet]
    cases hw : s.wallet with
    | none => exact h k
    | some wallet =>
      simp only []
      rw [(Initialize_loop_armed wallet.fees s).2 k]
      split
      · exact le_refl 1
      · exact h k
  | saveTransferFee contribution_id fee =>
    simp only [step, (SaveTransferFee_fields contribution_id fee s).1]
    exact armedTimers_start_le_one _ _ _ h
  | timerFires id =>
    simp only [step, fireTimer]
    cases hf : timerFind id s.transfer_fee_timers_ with
    | none => exact h
    | some attempts =>
      simp only [(OnTransferFeeTimerElapsed_fields env id attempts s).1]
      exact armedTimers_erase_le_one _ _ h
  | transferCompletes i result transaction_id =>
    simp only [step, completeTransfer]
    cases hg : s.pending.get? i with
    | none => exact h
    | some call =>
      simp only []
      cases hc : call.2 with
      | contribution contribution_id fee publisher_key callback =>
        simp only [runTransferCallback]
        rcases (ContributionCompleted_fields result transaction_id contribution_id fee
          publisher_key callback { s with pending := s.pending.eraseIdx i }).2 with h1 | h1
        · rw [h1]; exact h
        · rw [h1]; exact armedTimers_start_le_one _ _ _ h
      | fee contribution_id attempts =>
        simp only [runTransferCallback]
        rcases (OnTransferFeeCompleted_fields result transaction_id contribution_id attempts
          { s with pending := s.pending.eraseIdx i }).2 with h1 | h1
        · rw [h1]; exact h
        · rw [h1]; exact armedTimers_start_le_one _ _ _ h
      | client callback =>
        simp only [runTransferCallback, emit]
        exact h

theorem run_keeps_one_timer (env : Env) (steps : List Step) :
    ∀ s : State, (∀ k, armedTimers k s.transfer_fee_timers_ ≤ 1) →
      ∀ k, armedTimers k (run env steps s).transfer_fee_timers_ ≤ 1 := by
  induction steps with
  | nil => intro s h; exact h
  | cons e rest ih =>
    intro s h
    exact ih (step env e s) (step_keeps_one_timer env e s h)

theorem feeTransfersInFlight_append_fee (k id : String) (attempts : Int)
    (transaction : Transaction) (pending : List (Transaction × TransferCallback)) :
    feeTransfersInFlight k (pending ++ [(transaction, TransferCallback.fee id attempts)]) =
      feeTransfersInFlight k pending + (if id = k then 1 else 0) := by
  by_cases h : id = k <;>
    simp [feeTransfersInFlight, List.countP_append, isFeeCallbackFor, h]

theorem feesFind_some_mem (k : String) (v : ℚ) (fees : List (String × ℚ))
    (h : feesFind k fees = some v) : ∃ kv ∈ fees, kv.1 = k := by
  by_contra hne
  have hnone : feesFind k fees = none :=
    (mapFind_eq_none_iff k fees).2 (fun kv hkv hk => hne ⟨kv, hkv, hk⟩)
  rw [hnone] at h
  exact Option.noConfusion h

/-- An allowed event keeps, for every id, at most one of: an armed timer, a
fee transfer in flight. -/
theorem step_keeps_one_token (env : Env) (e : Step) (s : State)
    (hfee : ∀ p ∈ s.pending, ∃ id attempts, p.2 = TransferCallback.fee id attempts)
    (hone : ∀ k, armedTimers k s.transfer_fee_timers_ + feeTransfersInFlight k s.pending ≤ 1)
    (hallowed : stepAllowed e s = true) :
    (∀ p ∈ (step env e s).pending, ∃ id attempts, p.2 = TransferCallback.fee id attempts) ∧
    ∀ k, armedTimers k (step env e s).transfer_fee_timers_ +
      feeTransfersInFlight k (step env e s).pending ≤ 1 := by
  cases e with
  | init =>
    simp only [step, Initialize, GetWallet]
    cases hw : s.wallet with
    | none => exact ⟨hfee, hone⟩
    | some wallet =>
      simp only []
      obtain ⟨hp, ha⟩ := Initialize_loop_armed wallet.fees s
      rw [hp]
      refine ⟨hfee, fun k => ?_⟩
      rw [ha k]
      cases hk : feesFind k wallet.fees with
      | none =>
        simpa using hone k
      | some v =>
        obtain ⟨kv, hmem, hkv⟩ := feesFind_some_mem k v wallet.fees hk
        simp only [stepAllowed, hw, List.all_eq_true] at hallowed
        have h0 := hallowed kv hmem
        rw [hkv] at h0
        have h0' : feeTransfersInFlight k s.pending = 0 := by simpa using h0
        simp [h0']
  | saveTransferFee contribution_id fee =>
    obtain ⟨ht, hp⟩ := SaveTransferFee_fields contribution_id fee s
    simp only [step, ht, hp]
    refine ⟨hfee, fun k => ?_⟩
    rw [armedTimers_start]
    by_cases hk : k = contribution_id
    · subst hk
      have h0 : feeTransfersInFlight k s.pending = 0 := by
        simpa [stepAllowed] using hallowed
      simp [h0]
    · simpa [hk] using hone k
  | timerFires id =>
    simp only [step, fireTimer]
    cases hf : timerFind id s.transfer_fee_timers_ with
    | none => exact ⟨hfee, hone⟩
    | some attempts =>
      simp only []
      obtain ⟨ht, hp⟩ := OnTransferFeeTimerElapsed_fields env id attempts s
      have hpos := armedTimers_pos_of_find id attempts _ hf
      have hid := hone id
      rw [ht]
      rcases hp with hp | ⟨amount, hp⟩
      · rw [hp]
        refine ⟨hfee, fun k => ?_⟩
        simp only [timerErase]
        rw [armedTimers_erase]
        have := hone k
        split <;> omega
      · rw [hp]
        refine ⟨?_, fun k => ?_⟩
        · intro p hmem
          rcases List.mem_append.1 hmem with h1 | h1
          · exact hfee p h1
          · simp only [List.mem_singleton] at h1
            exact ⟨id, attempts, by rw [h1]⟩
        · simp only [timerErase]
          rw [armedTimers_erase, feeTransfersInFlight_append_fee]
          have := hone k
          by_cases hk : k = id
          · subst hk
            simp
            omega
          · have hk2 : id ≠ k := fun h => hk h.symm
            simp [hk, hk2]
            exact this
  | transferCompletes i result transaction_id =>
    simp only [step, completeTransfer]
    cases hg : s.pending.get? i with
    | none => exact ⟨hfee, hone⟩
    | some call =>
      simp only []
      have hmem : call ∈ s.pending := List.get?_mem hg
      obtain ⟨id, attempts, hcall⟩ := hfee call hmem
      rw [hcall]
      simp only [runTransferCallback]
      obtain ⟨hp, ht⟩ := OnTransferFeeCompleted_fields result transaction_id id attempts
        { s with pending := s.pending.eraseIdx i }
      rw [hp]
      refine ⟨fun p hpm => hfee p (List.mem_of_mem_eraseIdx hpm), fun k => ?_⟩
      have hk1 := hone k
      have hck : feeTransfersInFlight k s.pending =
          feeTransfersInFlight k (s.pending.eraseIdx i) +
            (if isFeeCallbackFor k call.2 then 1 else 0) :=
        countP_eraseIdx_of_get
          (fun (p : Transaction × TransferCallback) => isFeeCallbackFor k p.2) s.pending i
          call hg
      have hb : isFeeCallbackFor k call.2 = decide (id = k) := by rw [hcall]; rfl
      rw [hb] at hck
      by_cases hk : k = id
      · subst hk
        simp only [decide_True, if_true] at hck
        rcases ht with ht | ht
        · rw [ht]
          simp only []
          omega
        · rw [ht]
          simp only []
          rw [armedTimers_start]
          simp only [if_true]
          omega
      · have hk2 : id ≠ k := fun h => hk h.symm
        simp only [hk2, decide_False, Bool.false_eq_true, if_false, Nat.add_zero] at hck
        rcases ht with ht | ht
        · rw [ht]
          simp only []
          omega
        · rw [ht]
          simp only []
          rw [armedTimers_start]
          simp only [hk, if_false]
          omega

theorem run_keeps_one_token (env : Env) (steps : List Step) :
    ∀ s : State,
      (∀ p ∈ s.pending, ∃ id attempts, p.2 = TransferCallback.fee id attempts) →
      (∀ k, armedTimers k s.transfer_fee_timers_ + feeTransfersInFlight k s.pending ≤ 1) →
      runAllowed env steps s = true →
      ∀ k, armedTimers k (run env steps s).transfer_fee_timers_ +
        feeTransfersInFlight k (run env steps s).pending ≤ 1 := by
  induction steps with
  | nil => intro s _ hone _; exact hone
  | cons e rest ih =>
    intro s hfee hone hallowed
    simp only [runAllowed, Bool.and_eq_true] at hallowed
    obtain ⟨h1, h2⟩ := step_keeps_one_token env e s hfee hone hallowed.1
    exact ih (step env e s) h1 h2 hallowed.2

/-- C12, amended. In every state reached from a fresh controller by any
sequence of `Initialize`, `SaveTransferFee`, timer firings and transfer
completions, each fee id has at most one armed timer, and arming an id (whatever
timer it had) leaves it with exactly one timer, carrying the new attempt
number, without touching other ids. Fee transfers in flight are bounded only
along sequences in which `Initialize` and `SaveTransferFee` are not run for an
id while a fee transfer of that id is pending: then every id has at most one
fee transfer in flight, and none while its timer is armed. -/
theorem one_timer_per_id (env : Env) (wallet : Option ExternalWallet) (shutting_down : Bool)
    (steps : List Step) (id : String) :
    armedTimers id (run env steps (initialState wallet shutting_down)).transfer_fee_timers_
      ≤ 1 ∧
    (∀ (attempts : Int) (s : State),
      armedTimers id (StartTransferFeeTimer id attempts s).transfer_fee_timers_ = 1 ∧
      timerFind id (StartTransferFeeTimer id attempts s).transfer_fee_timers_ =
        some attempts ∧
      ∀ k, k ≠ id →
        armedTimers k (StartTransferFeeTimer id attempts s).transfer_fee_timers_ =
          armedTimers k s.transfer_fee_timers_) ∧
    (runAllowed env steps (initialState wallet shutting_down) = true →
      armedTimers id (run env steps (initialState wallet shutting_down)).transfer_fee_timers_ +
        feeTransfersInFlight id (run env steps (initialState wallet shutting_down)).pending
        ≤ 1 ∧
      feeTransfersInFlight id (run env steps (initialState wallet shutting_down)).pending
        ≤ 1) := by
  refine ⟨?_, ?_, ?_⟩
  · exact run_keeps_one_timer env steps (initialState wallet shutting_down)
      (fun k => by simp [initialState, armedTimers]) id
  · intro attempts s
    rw [(StartTransferFeeTimer_fields id attempts s).1]
    refine ⟨by simp [armedTimers_start], timerFind_start_self _ _ _, fun k hk => ?_⟩
    simp [armedTimers_start, hk]
  · intro hallowed
    have h := run_keeps_one_token env steps (initialState wallet shutting_down)
      (fun p hp => by simp [initialState] at hp)
      (fun k => by simp [initialState, armedTimers, feeTransfersInFlight])
      hallowed id
    exact ⟨h, by omega⟩

/-- C12 amended, at a concrete input: `Initialize`, a firing, a failed
completion, `Initialize` again (nothing pending) and a second firing are all
allowed, and leave one fee transfer of `c1` in flight and no timer armed. -/
theorem one_timer_per_id_witness :
    runAllowed sampleEnv
      [Step.init, Step.timerFires "c1", Step.transferCompletes 0 Result.LEDGER_ERROR "",
        Step.init, Step.timerFires "c1"]
      (initialState (some (sampleWallet [("c1", 5)])) false) = true ∧
    (run sampleEnv
      [Step.init, Step.timerFires "c1", Step.transferCompletes 0 Result.LEDGER_ERROR "",
        Step.init, Step.timerFires "c1"]
      (initialState (some (sampleWallet [("c1", 5)])) false)).pending =
      [(feeTransaction sampleEnv 5, TransferCallback.fee "c1" 1)] ∧
    armedTimers "c1"
      (run sampleEnv
        [Step.init, Step.timerFires "c1", Step.transferCompletes 0 Result.LEDGER_ERROR "",
          Step.init, Step.timerFires "c1"]
        (initialState (some (sampleWallet [("c1", 5)])) false)).transfer_fee_timers_ +
      feeTransfersInFlight "c1"
        (run sampleEnv
          [Step.init, Step.timerFires "c1", Step.transferCompletes 0 Result.LEDGER_ERROR "",
            Step.init, Step.timerFires "c1"]
          (initialState (some (sampleWallet [("c1", 5)])) false)).pending ≤ 1 := by
  have hallowed : runAllowed sampleEnv
      [Step.init, Step.timerFires "c1", Step.transferCompletes 0 Result.LEDGER_ERROR "",
        Step.init, Step.timerFires "c1"]
      (initialState (some (sampleWallet [("c1", 5)])) false) = true := by
    simp [runAllowed, stepAllowed, step, initialState, sampleWallet, Initialize,
      StartTransferFeeTimer, emit, GetWallet, fireTimer, timerFind, mapFind, timerStart,
      mapErase, OnTransferFeeTimerElapsed, timerErase, TransferFee, transferStart,
      completeTransfer, runTransferCallback, OnTransferFeeCompleted, feeTransfersInFlight,
      isFeeCallbackFor]
  refine ⟨hallowed, ?_,
    ((one_timer_per_id sampleEnv (some (sampleWallet [("c1", 5)])) false
      [Step.init, Step.timerFires "c1", Step.transferCompletes 0 Result.LEDGER_ERROR "",
        Step.init, Step.timerFires "c1"] "c1").2.2 hallowed).1⟩
  simp [run, step, initialState, sampleWallet, Initialize,
    StartTransferFeeTimer, emit, GetWallet, fireTimer, timerFind, mapFind, timerStart,
    mapErase, OnTransferFeeTimerElapsed, timerErase, TransferFee, transferStart,
    completeTransfer, runTransferCallback, OnTransferFeeCompleted, feeTransaction]

end Uphold
